import Mathlib

/-!
apfs-clone-checker: a shallow embedding of `clone_checker.c`.

The program decides whether two files on an APFS volume share their physical
blocks.  It talks to the operating system through a handful of system calls
(`statfs`, `stat`, `open`, `close`, `lseek`, `fcntl` with `F_LOG2PHYS` and
`F_LOG2PHYS_EXT`).  The embedding below keeps the C control flow and passes an
explicit process state: the table of open descriptors, the chronological list
of system calls made so far, and what was written to stdout and stderr.

Conventions.
* C integers (`int`, `long`, `off_t`, `dev_t`, `ino_t`) are mathematical
  integers.  The only arithmetic in the program is `offset += block_size` in
  `compare_blocks`; the offsets it reaches stay below the file size plus one
  block (`compare_blocks_offsets_bounded`), so for real files (sizes far
  below `2^63`) no 64-bit wrap-around can happen.
* A function that can call `exit` returns a `Ctl`: either it returns to its
  caller or the process has exited with a status.
* The loop of `compare_blocks` takes a fuel argument, one unit per evaluation
  of the loop head; `none` means that the fuel ran out.
* The option-parsing loop of `main` (`getopt`, `printUsage`) is outside the
  model: `main` starts from the two flags and the two path arguments.
-/

namespace CloneChecker

/-! ## Platform constants (from the system headers) -/

/-- The errno of "result too large": a logical offset beyond the mapped range. -/
def ERANGE : Int := 34

/-- The errno of a call on a descriptor that is not open. -/
def EBADF : Int := 9

/-- The errno of an invalid argument (a seek before the start of the file). -/
def EINVAL : Int := 22

/-- Exit status of a successful run. -/
def EXIT_SUCCESS : Int := 0

/-- Exit status of a failed run. -/
def EXIT_FAILURE : Int := 1

/-- Mask of the file-type bits of `st_mode`. -/
def S_IFMT : Nat := 0o170000

/-- File-type bits of a regular file. -/
def S_IFREG : Nat := 0o100000

/-! ## The operating system as seen by the program -/

/-- The fields of `struct stat` that the program reads. -/
structure Stat where
  st_dev : Int
  st_ino : Int
  st_mode : Nat
  st_size : Int
  st_blksize : Int
deriving DecidableEq, Repr

/-- Outcome of one `fcntl(fd, F_LOG2PHYS or F_LOG2PHYS_EXT, &phys)`: the return
value `sts`, the value of `errno` after a failed call, and the field
`phys.l2p_devoffset` after the call. -/
structure FcntlRes where
  sts : Int
  errno : Int
  l2p_devoffset : Int
deriving DecidableEq, Repr

/-- What the system answers about one path.  `statfs_ret` and `stat_ret` are
the return values of `statfs` and `stat`; `open_errno` is `none` when the file
can be opened for reading; `log2phys_ext` answers `F_LOG2PHYS_EXT` at a logical
offset and `log2phys` answers `F_LOG2PHYS` at a file position; `size` and
`seek_errno` decide `lseek`. -/
structure File where
  statfs_ret : Int
  f_fstypename : String
  stat_ret : Int
  st : Stat
  open_errno : Option Int
  size : Int
  seek_errno : Option Int
  log2phys_ext : Int → FcntlRes
  log2phys : Int → FcntlRes

/-- An open file description: the file and the current position. -/
structure OpenFile where
  file : File
  pos : Int

/-- One system call together with what it returned. -/
inductive Call where
  | statfs (path : String) (ret : Int) (f_fstypename : String)
  | stat (path : String) (ret : Int) (st : Stat)
  | open_ (path : String) (ret : Int)
  | close (fd : Int) (ret : Int)
  | lseek_end (fd : Int) (off : Int) (ret : Int)
  | fcntl_log2phys (fd : Int) (res : FcntlRes)
  | fcntl_log2phys_ext (fd : Int) (l2p_devoffset : Int) (res : FcntlRes)
deriving DecidableEq, Repr

/-- The state of the process and of the system around it. -/
structure Proc where
  fs : String → File
  strerror : Int → String
  fds : List (Int × OpenFile)
  trace : List Call
  out : List String
  err : List String

/-- A fresh process: nothing open besides the standard streams, nothing
called, nothing written. -/
def Proc.init (fs : String → File) (strerror : Int → String) : Proc :=
  { fs := fs, strerror := strerror, fds := [], trace := [], out := [], err := [] }

/-- Record a system call at the end of the trace. -/
def Proc.log (s : Proc) (c : Call) : Proc :=
  { s with trace := s.trace ++ [c] }

/-- The open file description behind a descriptor, if any. -/
def lookupFd : List (Int × OpenFile) → Int → Option OpenFile
  | [], _ => none
  | (k, o) :: rest, fd => if k = fd then some o else lookupFd rest fd

/-- Remove a descriptor from the table. -/
def removeFd : List (Int × OpenFile) → Int → List (Int × OpenFile)
  | [], _ => []
  | (k, o) :: rest, fd => if k = fd then removeFd rest fd else (k, o) :: removeFd rest fd

/-- The lowest descriptor number above the standard streams that is not in use. -/
def lowestFreeFd (fds : List (Int × OpenFile)) : Int :=
  match (List.range (fds.length + 1)).find? (fun i => (lookupFd fds (3 + (i : Int))).isNone) with
  | some i => 3 + (i : Int)
  | none => 3 + (fds.length : Int)

/-- One `fprintf(stdout, ...)`. -/
def fprintf_stdout (text : String) (s : Proc) : Proc :=
  { s with out := s.out ++ [text] }

/-- One `fprintf(stderr, ...)`. -/
def fprintf_stderr (text : String) (s : Proc) : Proc :=
  { s with err := s.err ++ [text] }

/-- The call `statfs(path, &fs)`: return value and `fs.f_fstypename`. -/
def sys_statfs (path : String) (s : Proc) : (Int × String) × Proc :=
  (((s.fs path).statfs_ret, (s.fs path).f_fstypename),
    s.log (Call.statfs path (s.fs path).statfs_ret (s.fs path).f_fstypename))

/-- The call `stat(path, &st)`: return value and `st`. -/
def sys_stat (path : String) (s : Proc) : (Int × Stat) × Proc :=
  (((s.fs path).stat_ret, (s.fs path).st),
    s.log (Call.stat path (s.fs path).stat_ret (s.fs path).st))

/-- The call `open(path, O_RDONLY)`: the new descriptor, positioned at 0, or
`-1` with an errno. -/
def sys_open (path : String) (s : Proc) : (Int × Int) × Proc :=
  match (s.fs path).open_errno with
  | some e => ((-1, e), s.log (Call.open_ path (-1)))
  | none =>
    ((lowestFreeFd s.fds, 0),
      { s with fds := (lowestFreeFd s.fds, { file := s.fs path, pos := 0 }) :: s.fds,
               trace := s.trace ++ [Call.open_ path (lowestFreeFd s.fds)] })

/-- The call `close(fd)`. -/
def sys_close (fd : Int) (s : Proc) : Int × Proc :=
  match lookupFd s.fds fd with
  | some _ => (0, { s with fds := removeFd s.fds fd, trace := s.trace ++ [Call.close fd 0] })
  | none => (-1, s.log (Call.close fd (-1)))

/-- The result of `fcntl(fd, F_LOG2PHYS_EXT, &phys)` with
`phys.l2p_devoffset = offset` on entry. -/
def query_ext (fd : Int) (offset : Int) (s : Proc) : FcntlRes :=
  match lookupFd s.fds fd with
  | some o => o.file.log2phys_ext offset
  | none => { sts := -1, errno := EBADF, l2p_devoffset := offset }

/-- The call `fcntl(fd, F_LOG2PHYS_EXT, &phys)`. -/
def fcntl_LOG2PHYS_EXT (fd : Int) (offset : Int) (s : Proc) : FcntlRes × Proc :=
  (query_ext fd offset s, s.log (Call.fcntl_log2phys_ext fd offset (query_ext fd offset s)))

/-- The result of `fcntl(fd, F_LOG2PHYS, &phys)`: the query is made at the
current position of the descriptor. -/
def query_pos (fd : Int) (s : Proc) : FcntlRes :=
  match lookupFd s.fds fd with
  | some o => o.file.log2phys o.pos
  | none => { sts := -1, errno := EBADF, l2p_devoffset := 0 }

/-- The call `fcntl(fd, F_LOG2PHYS, &phys)`. -/
def fcntl_LOG2PHYS (fd : Int) (s : Proc) : FcntlRes × Proc :=
  (query_pos fd s, s.log (Call.fcntl_log2phys fd (query_pos fd s)))

/-- Replace the position of a descriptor. -/
def setPos : List (Int × OpenFile) → Int → Int → List (Int × OpenFile)
  | [], _, _ => []
  | (k, o) :: rest, fd, p =>
    if k = fd then (k, { o with pos := p }) :: rest else (k, o) :: setPos rest fd p

/-- The return value and errno of `lseek(fd, off, SEEK_END)`. -/
def seek_end_result (fd : Int) (off : Int) (s : Proc) : Int × Int :=
  match lookupFd s.fds fd with
  | none => (-1, EBADF)
  | some o =>
    match o.file.seek_errno with
    | some e => (-1, e)
    | none => if o.file.size + off < 0 then (-1, EINVAL) else (o.file.size + off, 0)

/-- The call `lseek(fd, off, SEEK_END)`. -/
def sys_lseek_END (fd : Int) (off : Int) (s : Proc) : (Int × Int) × Proc :=
  (seek_end_result fd off s,
    if (seek_end_result fd off s).1 < 0 then
      s.log (Call.lseek_end fd off (seek_end_result fd off s).1)
    else
      { s with fds := setPos s.fds fd (seek_end_result fd off s).1,
               trace := s.trace ++ [Call.lseek_end fd off (seek_end_result fd off s).1] })

/-! ## The program -/

/-- Either the function returned to its caller, or it called `exit`. -/
inductive Ctl (α : Type) where
  | ret (a : α) (s : Proc)
  | exit (status : Int) (s : Proc)

/-- The text of the diagnostic of a failed logical-to-physical query. -/
def msg_convert (filename : String) (errno : Int) (s : Proc) : String :=
  filename ++ ": Cannot convert logical to physical offset. " ++ toString errno ++ " "
    ++ s.strerror errno ++ "\n"

/-- The loop of `compare_blocks` (`for (offset = 0; sts >= 0; offset += block_size)`),
entered with the current `sts` and `offset`.  The result is the return value
of `compare_blocks` (`true` is 1, `false` is 0) and the state. -/
def compare_blocks_loop (block_size : Int) (filenameA filenameB : String) (fdA fdB : Int) :
    Nat → Int → Int → Proc → Option (Int × Proc)
  | 0, _, _, _ => none
  | fuel + 1, sts, offset, s =>
    if sts ≥ 0 then
      let physA := (fcntl_LOG2PHYS_EXT fdA offset s).1
      let s1 := (fcntl_LOG2PHYS_EXT fdA offset s).2
      if physA.sts < 0 ∧ physA.errno = ERANGE then
        let physB := (fcntl_LOG2PHYS_EXT fdB offset s1).1
        let s2 := (fcntl_LOG2PHYS_EXT fdB offset s1).2
        if physB.sts < 0 ∧ physB.errno = ERANGE then
          some (1, s2)
        else if physB.sts < 0 then
          some (-1, fprintf_stderr (msg_convert filenameB physB.errno s2) s2)
        else
          some (0, s2)
      else if physA.sts < 0 then
        some (-1, fprintf_stderr (msg_convert filenameA physA.errno s1) s1)
      else
        let physB := (fcntl_LOG2PHYS_EXT fdB offset s1).1
        let s2 := (fcntl_LOG2PHYS_EXT fdB offset s1).2
        if physB.sts < 0 ∧ physB.errno = ERANGE then
          some (0, s2)
        else if physB.sts < 0 then
          some (-1, fprintf_stderr (msg_convert filenameB physB.errno s2) s2)
        else
          let s3 := fprintf_stderr
            (toString physA.l2p_devoffset ++ " " ++ toString physB.l2p_devoffset ++ "\n") s2
          if physA.l2p_devoffset ≠ physB.l2p_devoffset then
            some (0, s3)
          else
            compare_blocks_loop block_size filenameA filenameB fdA fdB fuel physB.sts
              (offset + block_size) s3
    else
      some (0, s)

/-- The function `compare_blocks`: the walk starts with `sts = 0` at offset 0. -/
def compare_blocks (fuel : Nat) (block_size : Int) (filenameA filenameB : String)
    (fdA fdB : Int) (s : Proc) : Option (Int × Proc) :=
  compare_blocks_loop block_size filenameA filenameB fdA fdB fuel 0 0 s

/-- The text of the diagnostic of a failed seek. -/
def msg_seek (filename : String) (sts errno : Int) (s : Proc) : String :=
  filename ++ ": Cannot seek. " ++ toString sts ++ " " ++ s.strerror errno ++ "\n"

/-- The function `compare_boundary_blocks`. -/
def compare_boundary_blocks (filenameA filenameB : String) (fdA fdB : Int) (s : Proc) :
    Int × Proc :=
  let physA := (fcntl_LOG2PHYS fdA s).1
  let s1 := (fcntl_LOG2PHYS fdA s).2
  if physA.sts < 0 then
    (-1, fprintf_stderr (msg_convert filenameA physA.errno s1) s1)
  else
    let physB := (fcntl_LOG2PHYS fdB s1).1
    let s2 := (fcntl_LOG2PHYS fdB s1).2
    if physB.sts < 0 then
      (-1, fprintf_stderr (msg_convert filenameB physB.errno s2) s2)
    else if physA.l2p_devoffset = physB.l2p_devoffset then
      let seekA := (sys_lseek_END fdA (-1) s2).1
      let s3 := (sys_lseek_END fdA (-1) s2).2
      if seekA.1 < 0 then
        (-1, fprintf_stderr (msg_seek filenameA seekA.1 seekA.2 s3) s3)
      else
        let seekB := (sys_lseek_END fdB (-1) s3).1
        let s4 := (sys_lseek_END fdB (-1) s3).2
        if seekB.1 < 0 then
          (-1, fprintf_stderr (msg_seek filenameB seekB.1 seekB.2 s4) s4)
        else
          let lastA := (fcntl_LOG2PHYS fdA s4).1
          let s5 := (fcntl_LOG2PHYS fdA s4).2
          if lastA.sts < 0 then
            (-1, fprintf_stderr (msg_convert filenameA lastA.errno s5) s5)
          else
            let lastB := (fcntl_LOG2PHYS fdB s5).1
            let s6 := (fcntl_LOG2PHYS fdB s5).2
            if lastB.sts < 0 then
              (-1, fprintf_stderr (msg_convert filenameB lastB.errno s6) s6)
            else
              (if lastA.l2p_devoffset = lastB.l2p_devoffset then 1 else 0, s6)
    else
      (0, s2)

/-- The function `check_disk_fs`. -/
def check_disk_fs (filename : String) (is_forced_mode : Bool) (s : Proc) : Ctl Unit :=
  let fs := (sys_statfs filename s).1
  let s1 := (sys_statfs filename s).2
  if fs.1 = 0 then
    if fs.2 ≠ "apfs" then
      let s2 := fprintf_stderr (filename ++ ": Only APFS is supported: " ++ fs.2 ++ "\n") s1
      if is_forced_mode then
        Ctl.exit EXIT_SUCCESS (fprintf_stdout "0\n" s2)
      else
        Ctl.exit EXIT_FAILURE s2
    else
      Ctl.ret () s1
  else
    Ctl.ret () s1

/-- The function `check_file`. -/
def check_file (filename : String) (is_forced_mode : Bool) (s : Proc) : Ctl Stat :=
  let st := (sys_stat filename s).1
  let s1 := (sys_stat filename s).2
  if st.1 < 0 then
    let s2 := fprintf_stderr (filename ++ ": No such file\n") s1
    if is_forced_mode then
      Ctl.exit EXIT_SUCCESS (fprintf_stdout "0\n" s2)
    else
      Ctl.exit EXIT_FAILURE s2
  else if st.2.st_mode &&& S_IFMT ≠ S_IFREG then
    let s2 := fprintf_stderr (filename ++ ": Not a regular file\n") s1
    if is_forced_mode then
      Ctl.exit EXIT_SUCCESS (fprintf_stdout "0\n" s2)
    else
      Ctl.exit EXIT_FAILURE s2
  else
    Ctl.ret st.2 s1

/-- The comparator call of `main`: the quick or the full algorithm. -/
def run_comparator (fuel : Nat) (is_quick_mode : Bool) (block_size : Int)
    (filenameA filenameB : String) (fdA fdB : Int) (s : Proc) : Option (Int × Proc) :=
  if is_quick_mode then
    some (compare_boundary_blocks filenameA filenameB fdA fdB s)
  else
    compare_blocks fuel block_size filenameA filenameB fdA fdB s

/-- The tail of `main` once both files are open (lines 82 to 102): compare,
close both descriptors, report. -/
def main_compare (fuel : Nat) (is_forced_mode is_quick_mode : Bool) (block_size : Int)
    (filenameA filenameB : String) (fdA fdB : Int) (s : Proc) : Option (Int × Proc) :=
  match run_comparator fuel is_quick_mode block_size filenameA filenameB fdA fdB s with
  | none => none
  | some (result, s1) =>
    let s2 := (sys_close fdA s1).2
    let s3 := (sys_close fdB s2).2
    if result ≠ -1 then
      some (EXIT_SUCCESS, fprintf_stdout (toString result ++ "\n") s3)
    else if is_forced_mode then
      some (EXIT_SUCCESS, fprintf_stdout "0\n" s3)
    else
      some (EXIT_FAILURE, s3)

/-- The part of `main` after the four eligibility checks (lines 52 to 102):
the pre-filter, the two `open` calls and the comparison. -/
def main_checked (fuel : Nat) (is_forced_mode is_quick_mode : Bool)
    (filenameA filenameB : String) (statA statB : Stat) (s : Proc) : Option (Int × Proc) :=
  if statA.st_dev ≠ statB.st_dev ∨ statA.st_size ≠ statB.st_size ∨ statA.st_size < 1
      ∨ statA.st_ino = statB.st_ino then
    some (EXIT_SUCCESS, fprintf_stdout "0\n" s)
  else
    let fdA := (sys_open filenameA s).1
    let s1 := (sys_open filenameA s).2
    if fdA.1 < 0 then
      let s2 := fprintf_stderr (filenameA ++ ": Cannot open. " ++ s1.strerror fdA.2 ++ "\n") s1
      if is_forced_mode then
        some (EXIT_SUCCESS, fprintf_stdout "0\n" s2)
      else
        some (EXIT_FAILURE, s2)
    else
      let fdB := (sys_open filenameB s1).1
      let s2 := (sys_open filenameB s1).2
      if fdB.1 < 0 then
        let s3 := fprintf_stderr (filenameB ++ ": Cannot open. " ++ s2.strerror fdB.2 ++ "\n") s2
        let s4 := (sys_close fdA.1 s3).2
        if is_forced_mode then
          some (EXIT_SUCCESS, fprintf_stdout "0\n" s4)
        else
          some (EXIT_FAILURE, s4)
      else
        main_compare fuel is_forced_mode is_quick_mode statA.st_blksize filenameA filenameB
          fdA.1 fdB.1 s2

/-- The function `main` after option parsing: the exit status and the final
state of the process, or `none` when the walk of `compare_blocks` needs more
fuel. -/
def main (fuel : Nat) (is_forced_mode is_quick_mode : Bool) (filenameA filenameB : String)
    (s : Proc) : Option (Int × Proc) :=
  match check_disk_fs filenameA is_forced_mode s with
  | Ctl.exit status s1 => some (status, s1)
  | Ctl.ret _ s1 =>
    match check_disk_fs filenameB is_forced_mode s1 with
    | Ctl.exit status s2 => some (status, s2)
    | Ctl.ret _ s2 =>
      match check_file filenameA is_forced_mode s2 with
      | Ctl.exit status s3 => some (status, s3)
      | Ctl.ret statA s3 =>
        match check_file filenameB is_forced_mode s3 with
        | Ctl.exit status s4 => some (status, s4)
        | Ctl.ret statB s4 =>
          main_checked fuel is_forced_mode is_quick_mode filenameA filenameB statA statB s4

/-! ## Sample files used to evaluate the program -/

/-- A regular file on APFS with the given device, inode, size and block size,
whose byte at logical offset `o` lives at physical offset `map o`: a stride
query at or beyond the size reports end-of-range, and one at a negative offset
is an invalid argument. -/
def mkFile (dev ino size blksize : Int) (map : Int → Int) : File :=
  { statfs_ret := 0
    f_fstypename := "apfs"
    stat_ret := 0
    st := { st_dev := dev, st_ino := ino, st_mode := 0o100644, st_size := size,
            st_blksize := blksize }
    open_errno := none
    size := size
    seek_errno := none
    log2phys_ext := fun o =>
      if o < 0 then { sts := -1, errno := EINVAL, l2p_devoffset := o }
      else if o < size then { sts := 0, errno := 0, l2p_devoffset := map o }
      else { sts := -1, errno := ERANGE, l2p_devoffset := o }
    log2phys := fun p => { sts := 0, errno := 0, l2p_devoffset := map p } }

/-- A path that does not exist: every call on it fails. -/
def missingFile : File :=
  { statfs_ret := -1
    f_fstypename := ""
    stat_ret := -1
    st := { st_dev := 0, st_ino := 0, st_mode := 0, st_size := 0, st_blksize := 0 }
    open_errno := some 2
    size := 0
    seek_errno := some EBADF
    log2phys_ext := fun o => { sts := -1, errno := EBADF, l2p_devoffset := o }
    log2phys := fun _ => { sts := -1, errno := EBADF, l2p_devoffset := 0 } }

/-- A sample volume.  The files "a" and "b" are three blocks of 4096 bytes
sharing their physical blocks; "c" has the same size and shares the first and
the last block with "a" but not the middle one; "short" is like "a" except
that its mapped range ends after two blocks; "small" has a different size;
"hfs" lives on a file system that is not APFS; "dir" is a directory; "locked"
cannot be opened; "broken" is like "a" except that the stride query at offset
4096 fails with an input/output error; every other path does not exist. -/
def sampleFs : String → File := fun path =>
  if path = "a" then mkFile 1 10 12288 4096 (fun o => 1000000 + o)
  else if path = "b" then mkFile 1 11 12288 4096 (fun o => 1000000 + o)
  else if path = "c" then
    mkFile 1 12 12288 4096 (fun o => if 4096 ≤ o ∧ o < 8192 then 5000000 + o else 1000000 + o)
  else if path = "short" then
    { mkFile 1 13 12288 4096 (fun o => 1000000 + o) with
      log2phys_ext := (mkFile 1 13 8192 4096 (fun o => 1000000 + o)).log2phys_ext }
  else if path = "small" then mkFile 1 14 4096 4096 (fun o => 1000000 + o)
  else if path = "hfs" then
    { mkFile 2 20 12288 4096 (fun o => 1000000 + o) with f_fstypename := "hfs" }
  else if path = "dir" then
    { mkFile 1 15 12288 4096 (fun o => 1000000 + o) with
      st := { st_dev := 1, st_ino := 15, st_mode := 0o040755, st_size := 96,
              st_blksize := 4096 } }
  else if path = "locked" then
    { mkFile 1 16 12288 4096 (fun o => 1000000 + o) with open_errno := some 13 }
  else if path = "broken" then
    { mkFile 1 17 12288 4096 (fun o => 1000000 + o) with
      log2phys_ext := fun o =>
        if o = 4096 then { sts := -1, errno := 5, l2p_devoffset := o }
        else (mkFile 1 17 12288 4096 (fun o => 1000000 + o)).log2phys_ext o }
  else missingFile

/-- A sample `strerror`. -/
def sampleStrerror : Int → String := fun e => "error " ++ toString e

/-- A file system with the file `fA` at the path "fileA" and `fB` everywhere
else. -/
def pairFs (fA fB : File) : String → File := fun path =>
  if path = "fileA" then fA else fB

/-! ## Vocabulary of the claims -/

/-- The query reported end-of-range. -/
abbrev FcntlRes.isERange (r : FcntlRes) : Prop := r.sts < 0 ∧ r.errno = ERANGE

/-- The query failed with an error other than end-of-range. -/
abbrev FcntlRes.isError (r : FcntlRes) : Prop := r.sts < 0 ∧ r.errno ≠ ERANGE

/-- The query resolved successfully. -/
abbrev FcntlRes.isOk (r : FcntlRes) : Prop := 0 ≤ r.sts

/-- What one iteration of the walk decides from the two answers at its offset:
a return value, or `none` to go on with the next stride. -/
def verdict (a b : FcntlRes) : Option Int :=
  if a.sts < 0 ∧ a.errno = ERANGE then
    if b.sts < 0 ∧ b.errno = ERANGE then some 1
    else if b.sts < 0 then some (-1)
    else some 0
  else if a.sts < 0 then some (-1)
  else if b.sts < 0 ∧ b.errno = ERANGE then some 0
  else if b.sts < 0 then some (-1)
  else if a.l2p_devoffset ≠ b.l2p_devoffset then some 0
  else none

/-- Is the call an `F_LOG2PHYS_EXT` query on the descriptor. -/
def Call.isExtOn (fd : Int) : Call → Bool
  | Call.fcntl_log2phys_ext fd1 _ _ => fd1 = fd
  | _ => false

/-- Number of `F_LOG2PHYS_EXT` queries on a descriptor in a trace. -/
def countExt (fd : Int) (t : List Call) : Nat := (t.filter (Call.isExtOn fd)).length

/-- The state reached from `s` by calls that only query block mappings at the
offset `off`: same descriptors, same stdout, and the trace grew by
`F_LOG2PHYS_EXT` queries at `off`, exactly one of them on `fdA`. -/
structure StepOf (fdA fdB : Int) (off : Int) (s s1 : Proc) : Prop where
  fds : s1.fds = s.fds
  out : s1.out = s.out
  trace : ∃ new, s1.trace = s.trace ++ new ∧
    (∀ c ∈ new, ∃ fd, (fd = fdA ∨ fd = fdB) ∧
      c = Call.fcntl_log2phys_ext fd off (query_ext fd off s)) ∧
    (fdA ≠ fdB → countExt fdA new = 1)

/-- The verdict of the iteration at an offset, from the answers of the two
descriptors in state `s`. -/
def verdictAt (fdA fdB : Int) (s : Proc) (off : Int) : Option Int :=
  verdict (query_ext fdA off s) (query_ext fdB off s)

/-- The state reached from `s` by a walk that started at `off` and ended in
its iteration number `k`. -/
structure WalkOf (fdA fdB : Int) (off block_size : Int) (k : Nat) (s s1 : Proc) : Prop where
  fds : s1.fds = s.fds
  out : s1.out = s.out
  trace : ∃ new, s1.trace = s.trace ++ new ∧
    (∀ c ∈ new, ∃ fd, ∃ j : Nat, j ≤ k ∧ (fd = fdA ∨ fd = fdB) ∧
      c = Call.fcntl_log2phys_ext fd (off + j * block_size)
        (query_ext fd (off + j * block_size) s)) ∧
    (fdA ≠ fdB → countExt fdA new = k + 1)

/-- Both descriptors report end-of-range at the logical offset. -/
abbrev BothEndOfRange (fdA fdB : Int) (s : Proc) (off : Int) : Prop :=
  (query_ext fdA off s).isERange ∧ (query_ext fdB off s).isERange

/-- Both descriptors resolve the logical offset, to the same physical offset. -/
abbrev SamePhysical (fdA fdB : Int) (s : Proc) (off : Int) : Prop :=
  (query_ext fdA off s).isOk ∧ (query_ext fdB off s).isOk ∧
    (query_ext fdA off s).l2p_devoffset = (query_ext fdB off s).l2p_devoffset

/-- Both descriptors resolve the logical offset, to different physical offsets. -/
abbrev DifferentPhysical (fdA fdB : Int) (s : Proc) (off : Int) : Prop :=
  (query_ext fdA off s).isOk ∧ (query_ext fdB off s).isOk ∧
    (query_ext fdA off s).l2p_devoffset ≠ (query_ext fdB off s).l2p_devoffset

/-- The ceiling of `size / block_size`. -/
def ceilDiv (size block_size : Int) : Nat := ((size + block_size - 1) / block_size).toNat

/-- A call that only queries an open descriptor: it opens and closes nothing. -/
def Call.isQuery : Call → Bool
  | Call.lseek_end _ _ _ => true
  | Call.fcntl_log2phys _ _ => true
  | Call.fcntl_log2phys_ext _ _ _ => true
  | _ => false

/-- A call whose answer is one of the failure conditions of the program: a
file system that is not APFS, a path that cannot be stat-ed or is not a
regular file, a failed `open`, a failed seek, a failed point query, or a
stride query that failed with an error other than end-of-range. -/
def Call.isFailure : Call → Bool
  | Call.statfs _ ret name => decide (ret = 0 ∧ name ≠ "apfs")
  | Call.stat _ ret st => decide (ret < 0 ∨ st.st_mode &&& S_IFMT ≠ S_IFREG)
  | Call.open_ _ ret => decide (ret < 0)
  | Call.close _ _ => false
  | Call.lseek_end _ _ ret => decide (ret < 0)
  | Call.fcntl_log2phys _ res => decide (res.sts < 0)
  | Call.fcntl_log2phys_ext _ _ res => decide (res.sts < 0 ∧ res.errno ≠ ERANGE)

/-- The file system type of the path does not stop `check_disk_fs`: either
`statfs` fails, or it reports "apfs". -/
abbrev PassesFs (f : File) : Prop := f.statfs_ret ≠ 0 ∨ f.f_fstypename = "apfs"

/-- The path passes `check_file`: `stat` succeeds on a regular file. -/
abbrev PassesStat (f : File) : Prop := ¬ f.stat_ret < 0 ∧ f.st.st_mode &&& S_IFMT = S_IFREG

/-- The condition of the pre-filter of `main` (line 52). -/
abbrev PreFilter (a b : Stat) : Prop :=
  a.st_dev ≠ b.st_dev ∨ a.st_size ≠ b.st_size ∨ a.st_size < 1 ∨ a.st_ino = b.st_ino

/-- What a run that ends on a failure writes to stdout. -/
def failOut (is_forced_mode : Bool) : List String := if is_forced_mode then ["0\n"] else []

/-- The exit status of a run that ends on a failure. -/
def failStatus (is_forced_mode : Bool) : Int :=
  if is_forced_mode then EXIT_SUCCESS else EXIT_FAILURE

/-- The `statfs` call on a path, as it appears in the trace. -/
def callStatfs (fs : String → File) (path : String) : Call :=
  Call.statfs path (fs path).statfs_ret (fs path).f_fstypename

/-- The `stat` call on a path, as it appears in the trace. -/
def callStat (fs : String → File) (path : String) : Call :=
  Call.stat path (fs path).stat_ret (fs path).st

/-- The shape of a run of `main` that reached the comparison: the comparator
returned `r` after the queries `new`, both descriptors were closed, and the
result was reported. -/
structure Compared (forced : Bool) (fdA fdB : Int) (s : Proc) (status : Int) (s2 : Proc)
    (r : Int) (new : List Call) : Prop where
  value : r = 1 ∨ r = 0 ∨ r = -1
  queries : ∀ c ∈ new, c.isQuery = true
  clean : r ≠ -1 → ∀ c ∈ new, c.isFailure = false
  trace : ∃ retA retB, s2.trace = s.trace ++ new ++ [Call.close fdA retA, Call.close fdB retB]
  status : status = if r = -1 then failStatus forced else EXIT_SUCCESS
  out : s2.out = s.out ++ if r = -1 then failOut forced else [toString r ++ "\n"]

/-- The calls of the four eligibility checks of a run that passes them. -/
def checkCalls (fs : String → File) (filenameA filenameB : String) : List Call :=
  [callStatfs fs filenameA, callStatfs fs filenameB, callStat fs filenameA,
    callStat fs filenameB]

/-- The runs of `main` from a fresh process, by the place where they end: exit
status, stdout and trace of system calls. -/
inductive MainRun (forced : Bool) (fs : String → File) (filenameA filenameB : String) :
    Int → List String → List Call → Prop
  | fsA : ¬ PassesFs (fs filenameA) →
      MainRun forced fs filenameA filenameB (failStatus forced) (failOut forced)
        [callStatfs fs filenameA]
  | fsB : PassesFs (fs filenameA) → ¬ PassesFs (fs filenameB) →
      MainRun forced fs filenameA filenameB (failStatus forced) (failOut forced)
        [callStatfs fs filenameA, callStatfs fs filenameB]
  | statA : PassesFs (fs filenameA) → PassesFs (fs filenameB) → ¬ PassesStat (fs filenameA) →
      MainRun forced fs filenameA filenameB (failStatus forced) (failOut forced)
        [callStatfs fs filenameA, callStatfs fs filenameB, callStat fs filenameA]
  | statB : PassesFs (fs filenameA) → PassesFs (fs filenameB) → PassesStat (fs filenameA) →
      ¬ PassesStat (fs filenameB) →
      MainRun forced fs filenameA filenameB (failStatus forced) (failOut forced)
        (checkCalls fs filenameA filenameB)
  | filtered : PassesFs (fs filenameA) → PassesFs (fs filenameB) → PassesStat (fs filenameA) →
      PassesStat (fs filenameB) → PreFilter (fs filenameA).st (fs filenameB).st →
      MainRun forced fs filenameA filenameB EXIT_SUCCESS ["0\n"]
        (checkCalls fs filenameA filenameB)
  | openA : PassesFs (fs filenameA) → PassesFs (fs filenameB) → PassesStat (fs filenameA) →
      PassesStat (fs filenameB) → ¬ PreFilter (fs filenameA).st (fs filenameB).st →
      (fs filenameA).open_errno ≠ none →
      MainRun forced fs filenameA filenameB (failStatus forced) (failOut forced)
        (checkCalls fs filenameA filenameB ++ [Call.open_ filenameA (-1)])
  | openB : PassesFs (fs filenameA) → PassesFs (fs filenameB) → PassesStat (fs filenameA) →
      PassesStat (fs filenameB) → ¬ PreFilter (fs filenameA).st (fs filenameB).st →
      (fs filenameA).open_errno = none → (fs filenameB).open_errno ≠ none →
      MainRun forced fs filenameA filenameB (failStatus forced) (failOut forced)
        (checkCalls fs filenameA filenameB
          ++ [Call.open_ filenameA 3, Call.open_ filenameB (-1), Call.close 3 0])
  | compared (r : Int) (new : List Call) (retA retB : Int) :
      PassesFs (fs filenameA) → PassesFs (fs filenameB) → PassesStat (fs filenameA) →
      PassesStat (fs filenameB) → ¬ PreFilter (fs filenameA).st (fs filenameB).st →
      (fs filenameA).open_errno = none → (fs filenameB).open_errno = none →
      (r = 1 ∨ r = 0 ∨ r = -1) → (∀ c ∈ new, c.isQuery = true) →
      (r ≠ -1 → ∀ c ∈ new, c.isFailure = false) →
      MainRun forced fs filenameA filenameB
        (if r = -1 then failStatus forced else EXIT_SUCCESS)
        (if r = -1 then failOut forced else [toString r ++ "\n"])
        (checkCalls fs filenameA filenameB
          ++ [Call.open_ filenameA 3, Call.open_ filenameB 4] ++ new
          ++ [Call.close 3 retA, Call.close 4 retB])

/-- The state of a fresh process after the four eligibility checks passed. -/
def checkedState (fs : String → File) (strerror : Int → String)
    (filenameA filenameB : String) : Proc :=
  { fs := fs, strerror := strerror, fds := [], trace := checkCalls fs filenameA filenameB,
    out := [], err := [] }

/-- The state of a fresh process after the checks passed and the first file
was opened, as descriptor 3. -/
def openedFirst (fs : String → File) (strerror : Int → String)
    (filenameA filenameB : String) : Proc :=
  { fs := fs, strerror := strerror,
    fds := [(3, { file := fs filenameA, pos := 0 })],
    trace := checkCalls fs filenameA filenameB ++ [Call.open_ filenameA 3],
    out := [], err := [] }

/-- The state of a fresh process after the checks passed and both files were
opened: descriptor 3 is the first file, descriptor 4 the second. -/
def openedState (fs : String → File) (strerror : Int → String)
    (filenameA filenameB : String) : Proc :=
  { fs := fs, strerror := strerror,
    fds := [(4, { file := fs filenameB, pos := 0 }), (3, { file := fs filenameA, pos := 0 })],
    trace := checkCalls fs filenameA filenameB
      ++ [Call.open_ filenameA 3, Call.open_ filenameB 4],
    out := [], err := [] }

/-- The descriptors left open after a sequence of calls that starts with the
descriptors `held` open; `none` when the sequence closes a descriptor that is
not open at that point (never opened, or already closed) or opens one twice. -/
def descriptorsAfter : List Int → List Call → Option (List Int)
  | held, [] => some held
  | held, Call.open_ _ ret :: rest =>
    if ret < 0 then descriptorsAfter held rest
    else if ret ∈ held then none
    else descriptorsAfter (ret :: held) rest
  | held, Call.close fd _ :: rest =>
    if fd ∈ held then descriptorsAfter (held.erase fd) rest else none
  | held, Call.statfs _ _ _ :: rest => descriptorsAfter held rest
  | held, Call.stat _ _ _ :: rest => descriptorsAfter held rest
  | held, Call.lseek_end _ _ _ :: rest => descriptorsAfter held rest
  | held, Call.fcntl_log2phys _ _ :: rest => descriptorsAfter held rest
  | held, Call.fcntl_log2phys_ext _ _ _ :: rest => descriptorsAfter held rest

/-- The path is on a file system that is not APFS: `statfs` succeeds and
reports another type name. -/
abbrev NotApfs (f : File) : Prop := f.statfs_ret = 0 ∧ f.f_fstypename ≠ "apfs"

/-- The path cannot be stat-ed. -/
abbrev CannotStat (f : File) : Prop := f.stat_ret < 0

/-- The path can be stat-ed and is not a regular file. -/
abbrev NotRegular (f : File) : Prop := ¬ f.stat_ret < 0 ∧ f.st.st_mode &&& S_IFMT ≠ S_IFREG

/-- The file cannot be opened for reading. -/
abbrev CannotOpen (f : File) : Prop := f.open_errno ≠ none

/-- The seek to the last byte of the file fails. -/
abbrev SeekFails (f : File) : Prop := f.seek_errno ≠ none ∨ f.size < 1

/-- A resolution or seek error inside the quick comparator: a point query at
offset 0 fails, or the offsets at 0 agree and a seek to the last byte or a
point query at the last byte fails. -/
def QuickError (fA fB : File) : Prop :=
  (fA.log2phys 0).sts < 0 ∨ (fB.log2phys 0).sts < 0 ∨
  ((fA.log2phys 0).l2p_devoffset = (fB.log2phys 0).l2p_devoffset ∧
    (SeekFails fA ∨ SeekFails fB ∨ (fA.log2phys (fA.size - 1)).sts < 0 ∨
      (fB.log2phys (fB.size - 1)).sts < 0))

/-- A resolution error inside the full comparator: at some stride offset one
of the two stride queries fails with an error other than end-of-range, all
earlier stride offsets having resolved to equal physical offsets. -/
def FullError (fA fB : File) (block_size : Int) : Prop :=
  ∃ k : Nat,
    (∀ j : Nat, j < k →
      (fA.log2phys_ext (j * block_size)).isOk ∧ (fB.log2phys_ext (j * block_size)).isOk ∧
      (fA.log2phys_ext (j * block_size)).l2p_devoffset
        = (fB.log2phys_ext (j * block_size)).l2p_devoffset) ∧
    ((fA.log2phys_ext (k * block_size)).isError ∨ (fB.log2phys_ext (k * block_size)).isError)

/-- A resolution or seek error inside the comparator that `main` runs. -/
def ComparatorError (quick : Bool) (fA fB : File) (block_size : Int) : Prop :=
  (quick = true ∧ QuickError fA fB) ∨ (quick = false ∧ FullError fA fB block_size)

/-- A failure condition occurs in the run of `main` on the two paths: one of
the paths is on a file system other than APFS, cannot be stat-ed or is not a
regular file; or the pre-filter does not decide the pair and a file cannot
be opened or the comparator meets a resolution or seek error. -/
def FailureOccurs (quick : Bool) (fs : String → File) (filenameA filenameB : String) : Prop :=
  NotApfs (fs filenameA) ∨ NotApfs (fs filenameB) ∨
  CannotStat (fs filenameA) ∨ CannotStat (fs filenameB) ∨
  NotRegular (fs filenameA) ∨ NotRegular (fs filenameB) ∨
  (¬ PreFilter (fs filenameA).st (fs filenameB).st ∧
    (CannotOpen (fs filenameA) ∨ CannotOpen (fs filenameB) ∨
      ComparatorError quick (fs filenameA) (fs filenameB) (fs filenameA).st.st_blksize))

/-- The sample process with two paths of the sample volume open as
descriptors 3 and 4, as `main` has it when it calls the comparator. -/
def sampleOpened (filenameA filenameB : String) : Proc :=
  openedState sampleFs sampleStrerror filenameA filenameB

/-- The final state of a run, or `s` when the run did not return. -/
def finalState (run : Option (Int × Proc)) (s : Proc) : Proc :=
  match run with
  | some r => r.2
  | none => s

/-! ## Lemmas and theorems -/

theorem query_ext_congr (fd off : Int) (s s1 : Proc) (h : s1.fds = s.fds) :
    query_ext fd off s1 = query_ext fd off s := by
  simp [query_ext, h]

theorem loop_step (block_size : Int) (filenameA filenameB : String) (fdA fdB : Int)
    (n : Nat) (sts offset : Int) (s : Proc) (hsts : 0 ≤ sts) :
    ∃ s1, StepOf fdA fdB offset s s1 ∧
      compare_blocks_loop block_size filenameA filenameB fdA fdB (n + 1) sts offset s =
        match verdict (query_ext fdA offset s) (query_ext fdB offset s) with
        | some r => some (r, s1)
        | none => compare_blocks_loop block_size filenameA filenameB fdA fdB n
            (query_ext fdB offset s).sts (offset + block_size) s1 := by
  have hq : ∀ c, query_ext fdB offset (s.log c) = query_ext fdB offset s := fun c => rfl
  simp only [compare_blocks_loop, verdict, fcntl_LOG2PHYS_EXT, hq, ge_iff_le, hsts, if_true]
  split_ifs
  all_goals
    refine ⟨_, ?_, rfl⟩
    refine ⟨rfl, rfl, ?_⟩
    simp only [fprintf_stderr, Proc.log, List.append_assoc]
    refine ⟨_, rfl, ?_, ?_⟩
    · intro c hc
      simp only [List.mem_cons, List.mem_singleton, List.mem_append, List.not_mem_nil,
        or_false] at hc
      first
        | exact ⟨fdA, Or.inl rfl, hc⟩
        | exact hc.elim (fun h => ⟨fdA, Or.inl rfl, h⟩) (fun h => ⟨fdB, Or.inr rfl, h⟩)
    · intro hne
      simp [countExt, Call.isExtOn, List.filter_cons, hne, Ne.symm hne]

theorem verdict_none_iff (a b : FcntlRes) :
    verdict a b = none ↔ 0 ≤ a.sts ∧ 0 ≤ b.sts ∧ a.l2p_devoffset = b.l2p_devoffset := by
  unfold verdict
  split_ifs <;> simp_all

theorem verdictAt_congr (fdA fdB : Int) (s s1 : Proc) (h : s1.fds = s.fds) (off : Int) :
    verdictAt fdA fdB s1 off = verdictAt fdA fdB s off := by
  simp [verdictAt, query_ext_congr _ _ _ _ h]

theorem countExt_append (fd : Int) (t u : List Call) :
    countExt fd (t ++ u) = countExt fd t + countExt fd u := by
  simp [countExt]

theorem loop_sound (block_size : Int) (filenameA filenameB : String) (fdA fdB : Int) :
    ∀ (n : Nat) (sts off : Int) (s : Proc) (r : Int) (s1 : Proc), 0 ≤ sts →
      compare_blocks_loop block_size filenameA filenameB fdA fdB n sts off s = some (r, s1) →
      ∃ k : Nat, k < n ∧ (∀ j : Nat, j < k → verdictAt fdA fdB s (off + j * block_size) = none) ∧
        verdictAt fdA fdB s (off + k * block_size) = some r ∧
        WalkOf fdA fdB off block_size k s s1 := by
  intro n
  induction n with
  | zero => intro sts off s r s1 _ h; simp [compare_blocks_loop] at h
  | succ n ih =>
    intro sts off s r s1 hsts h
    obtain ⟨s2, hstep, heq⟩ := loop_step block_size filenameA filenameB fdA fdB n sts off s hsts
    rw [heq] at h
    obtain ⟨new, htr, hall, hcnt⟩ := hstep.trace
    cases hv : verdict (query_ext fdA off s) (query_ext fdB off s) with
    | some r0 =>
      rw [hv] at h
      simp only [Option.some.injEq, Prod.mk.injEq] at h
      obtain ⟨hr, hs⟩ := h
      subst hr; subst hs
      refine ⟨0, Nat.succ_pos n, ?_, ?_, ?_⟩
      · intro j hj; omega
      · simpa [verdictAt] using hv
      · refine ⟨hstep.fds, hstep.out, new, htr, ?_, ?_⟩
        · intro c hc
          obtain ⟨fd, hfd, hcq⟩ := hall c hc
          exact ⟨fd, 0, le_refl 0, hfd, by simpa using hcq⟩
        · intro hne; simpa using hcnt hne
    | none =>
      rw [hv] at h
      have hnone := (verdict_none_iff _ _).1 hv
      obtain ⟨k, hk, hbefore, hat, hwalk⟩ := ih _ _ _ _ _ hnone.2.1 h
      have hshift : ∀ j : Nat, off + block_size + (j : Int) * block_size
          = off + ((j + 1 : Nat) : Int) * block_size := by
        intro j; push_cast; ring
      refine ⟨k + 1, Nat.succ_lt_succ hk, ?_, ?_, ?_⟩
      · intro j hj
        cases j with
        | zero => simpa [verdictAt] using hv
        | succ j =>
          have := hbefore j (by omega)
          rw [verdictAt_congr _ _ _ _ hstep.fds, hshift] at this
          exact this
      · rw [verdictAt_congr _ _ _ _ hstep.fds, hshift] at hat
        exact hat
      · obtain ⟨new2, htr2, hall2, hcnt2⟩ := hwalk.trace
        refine ⟨hwalk.fds.trans hstep.fds, hwalk.out.trans hstep.out, new ++ new2, ?_, ?_, ?_⟩
        · rw [htr2, htr, List.append_assoc]
        · intro c hc
          rcases List.mem_append.1 hc with hc | hc
          · obtain ⟨fd, hfd, hcq⟩ := hall c hc
            exact ⟨fd, 0, Nat.zero_le _, hfd, by simpa using hcq⟩
          · obtain ⟨fd, j, hj, hfd, hcq⟩ := hall2 c hc
            refine ⟨fd, j + 1, by omega, hfd, ?_⟩
            rw [hcq, query_ext_congr _ _ _ _ hstep.fds, hshift]
        · intro hne
          rw [countExt_append, hcnt hne, hcnt2 hne]; omega

theorem loop_complete (block_size : Int) (filenameA filenameB : String) (fdA fdB : Int) :
    ∀ (k : Nat) (n : Nat) (sts off : Int) (s : Proc) (r : Int), 0 ≤ sts → k < n →
      (∀ j : Nat, j < k → verdictAt fdA fdB s (off + j * block_size) = none) →
      verdictAt fdA fdB s (off + k * block_size) = some r →
      ∃ s1, compare_blocks_loop block_size filenameA filenameB fdA fdB n sts off s
        = some (r, s1) := by
  intro k
  induction k with
  | zero =>
    intro n sts off s r hsts hn _ hat
    obtain ⟨m, rfl⟩ : ∃ m, n = m + 1 := ⟨n - 1, by omega⟩
    obtain ⟨s2, _, heq⟩ := loop_step block_size filenameA filenameB fdA fdB m sts off s hsts
    simp only [verdictAt, Nat.cast_zero, zero_mul, add_zero] at hat
    rw [heq, hat]
    exact ⟨s2, rfl⟩
  | succ k ih =>
    intro n sts off s r hsts hn hbefore hat
    obtain ⟨m, rfl⟩ : ∃ m, n = m + 1 := ⟨n - 1, by omega⟩
    obtain ⟨s2, hstep, heq⟩ := loop_step block_size filenameA filenameB fdA fdB m sts off s hsts
    have hv : verdict (query_ext fdA off s) (query_ext fdB off s) = none := by
      simpa [verdictAt] using hbefore 0 (Nat.succ_pos k)
    have hnone := (verdict_none_iff _ _).1 hv
    have hshift : ∀ j : Nat, off + block_size + (j : Int) * block_size
        = off + ((j + 1 : Nat) : Int) * block_size := by
      intro j; push_cast; ring
    rw [heq, hv]
    apply ih m _ _ s2 r hnone.2.1 (by omega)
    · intro j hj
      rw [verdictAt_congr _ _ _ _ hstep.fds, hshift]
      exact hbefore (j + 1) (by omega)
    · rw [verdictAt_congr _ _ _ _ hstep.fds, hshift]
      exact hat

theorem verdict_one_iff (a b : FcntlRes) :
    verdict a b = some 1 ↔ a.isERange ∧ b.isERange := by
  unfold verdict
  simp only [FcntlRes.isERange]
  split_ifs <;> simp_all

theorem verdict_no_error (a b : FcntlRes) (ha : ¬ a.isError) (hb : ¬ b.isError) (r : Int)
    (h : verdict a b = some r) : r = 1 ∨ r = 0 := by
  unfold verdict at h
  simp only [FcntlRes.isError, not_and, not_not] at ha hb
  split_ifs at h <;> simp_all

theorem verdictAt_none_iff (fdA fdB : Int) (s : Proc) (off : Int) :
    verdictAt fdA fdB s off = none ↔ SamePhysical fdA fdB s off := by
  simp [verdictAt, verdict_none_iff]

theorem verdictAt_one_iff (fdA fdB : Int) (s : Proc) (off : Int) :
    verdictAt fdA fdB s off = some 1 ↔ BothEndOfRange fdA fdB s off := by
  simp [verdictAt, verdict_one_iff]

theorem verdictAt_different (fdA fdB : Int) (s : Proc) (off : Int)
    (h : DifferentPhysical fdA fdB s off) : verdictAt fdA fdB s off = some 0 := by
  obtain ⟨ha, hb, hne⟩ := h
  simp only [FcntlRes.isOk] at ha hb
  unfold verdictAt verdict
  split_ifs <;> first | rfl | omega

/-- The first iteration that does not go on is unique. -/
theorem stop_unique (v : Nat → Option Int) (k1 k2 : Nat) (r1 r2 : Int)
    (h1 : ∀ j, j < k1 → v j = none) (e1 : v k1 = some r1)
    (h2 : ∀ j, j < k2 → v j = none) (e2 : v k2 = some r2) : k1 = k2 ∧ r1 = r2 := by
  have hk : k1 = k2 := by
    rcases Nat.lt_trichotomy k1 k2 with h | h | h
    · rw [h2 k1 h] at e1; simp at e1
    · exact h
    · rw [h1 k2 h] at e2; simp at e2
  subst hk
  rw [e1] at e2
  exact ⟨rfl, by simpa using e2⟩

/-- C1: full mode.  For a block size of at least 1 and two descriptors whose
`F_LOG2PHYS_EXT` queries never fail with an error other than end-of-range:
`compare_blocks` returns 1 (for some amount of fuel) exactly when there is a
stride offset `k * block_size` at which both report end-of-range while at every
earlier stride offset both resolve to the same physical offset; every run that
returns, returns 1 in that case and 0 otherwise; and after the queries at a
stride offset whose physical offsets differ the walk makes no further call: all
calls of the walk are queries at offsets up to that one. -/
theorem compare_blocks_full_mode (block_size : Int) (filenameA filenameB : String)
    (fdA fdB : Int) (s : Proc) (hbs : 1 ≤ block_size)
    (hA : ∀ off, 0 ≤ off → ¬ (query_ext fdA off s).isError)
    (hB : ∀ off, 0 ≤ off → ¬ (query_ext fdB off s).isError) :
    ((∃ fuel s1, compare_blocks fuel block_size filenameA filenameB fdA fdB s = some (1, s1)) ↔
      ∃ k : Nat, BothEndOfRange fdA fdB s (k * block_size) ∧
        ∀ j : Nat, j < k → SamePhysical fdA fdB s (j * block_size)) ∧
    (∀ fuel r s1, compare_blocks fuel block_size filenameA filenameB fdA fdB s = some (r, s1) →
      (r = 1 ∨ r = 0) ∧
      (r = 1 ↔ ∃ k : Nat, BothEndOfRange fdA fdB s (k * block_size) ∧
        ∀ j : Nat, j < k → SamePhysical fdA fdB s (j * block_size)) ∧
      (∀ d : Nat, DifferentPhysical fdA fdB s (d * block_size) →
        ∃ new, s1.trace = s.trace ++ new ∧
          ∀ c ∈ new, ∃ fd off res, c = Call.fcntl_log2phys_ext fd off res ∧
            off ≤ d * block_size)) := by
  have key : ∀ fuel r s1,
      compare_blocks fuel block_size filenameA filenameB fdA fdB s = some (r, s1) →
      ∃ k : Nat, (∀ j : Nat, j < k → verdictAt fdA fdB s (j * block_size) = none) ∧
        verdictAt fdA fdB s (k * block_size) = some r ∧
        WalkOf fdA fdB 0 block_size k s s1 := by
    intro fuel r s1 h
    obtain ⟨k, _, hb, ha, hw⟩ :=
      loop_sound block_size filenameA filenameB fdA fdB fuel 0 0 s r s1 (le_refl 0) h
    simp only [zero_add] at hb ha
    exact ⟨k, hb, ha, hw⟩
  have clone_of : ∀ k : Nat, (BothEndOfRange fdA fdB s (k * block_size) ∧
      ∀ j : Nat, j < k → SamePhysical fdA fdB s (j * block_size)) →
      (∀ j : Nat, j < k → verdictAt fdA fdB s (j * block_size) = none) ∧
        verdictAt fdA fdB s (k * block_size) = some 1 := by
    intro k hk
    exact ⟨fun j hj => (verdictAt_none_iff _ _ _ _).2 (hk.2 j hj),
      (verdictAt_one_iff _ _ _ _).2 hk.1⟩
  refine ⟨⟨?_, ?_⟩, ?_⟩
  · rintro ⟨fuel, s1, h⟩
    obtain ⟨k, hb, ha, _⟩ := key fuel 1 s1 h
    exact ⟨k, (verdictAt_one_iff _ _ _ _).1 ha,
      fun j hj => (verdictAt_none_iff _ _ _ _).1 (hb j hj)⟩
  · rintro ⟨k, hk⟩
    obtain ⟨hb, ha⟩ := clone_of k hk
    obtain ⟨s1, h⟩ := loop_complete block_size filenameA filenameB fdA fdB k (k + 1) 0 0 s 1
      (le_refl 0) (Nat.lt_succ_self k) (by simpa using hb) (by simpa using ha)
    exact ⟨k + 1, s1, h⟩
  · intro fuel r s1 h
    obtain ⟨k, hb, ha, hw⟩ := key fuel r s1 h
    refine ⟨?_, ⟨?_, ?_⟩, ?_⟩
    · have h0 : (0 : Int) ≤ (k : Int) * block_size :=
        Int.mul_nonneg (Int.ofNat_nonneg k) (by omega)
      exact verdict_no_error _ _ (hA _ h0) (hB _ h0) r ha
    · intro hr
      subst hr
      exact ⟨k, (verdictAt_one_iff _ _ _ _).1 ha,
        fun j hj => (verdictAt_none_iff _ _ _ _).1 (hb j hj)⟩
    · rintro ⟨k2, hk2⟩
      obtain ⟨hb2, ha2⟩ := clone_of k2 hk2
      exact (stop_unique (fun j => verdictAt fdA fdB s (j * block_size)) k k2 r 1
        hb ha hb2 ha2).2
    · intro d hd
      have hvd := verdictAt_different _ _ _ _ hd
      have hkd : k ≤ d := by
        by_contra hlt
        have := hb d (by omega)
        rw [this] at hvd
        simp at hvd
      obtain ⟨new, htr, hall, _⟩ := hw.trace
      refine ⟨new, htr, ?_⟩
      intro c hc
      obtain ⟨fd, j, hj, _, hcq⟩ := hall c hc
      refine ⟨fd, _, _, hcq, ?_⟩
      have : (j : Int) ≤ d := by exact_mod_cast (le_trans hj hkd)
      nlinarith

theorem le_ceilDiv_mul (size block_size : Int) (hsize : 1 ≤ size) (hbs : 1 ≤ block_size) :
    size ≤ (ceilDiv size block_size : Int) * block_size := by
  unfold ceilDiv
  have hq : 0 ≤ (size + block_size - 1) / block_size :=
    Int.ediv_nonneg (by omega) (by omega)
  rw [Int.toNat_of_nonneg hq]
  have h1 := Int.ediv_add_emod (size + block_size - 1) block_size
  have h2 := Int.emod_lt_of_pos (size + block_size - 1) (show 0 < block_size by omega)
  have h3 : (size + block_size - 1) / block_size * block_size
      = block_size * ((size + block_size - 1) / block_size) := by ring
  omega

theorem verdict_of_erange (a b : FcntlRes) (ha : a.isERange) : verdict a b ≠ none := by
  intro h
  have := (verdict_none_iff a b).1 h
  simp only [FcntlRes.isERange] at ha
  omega

/-- When some iteration stops the walk, there is a first one. -/
theorem first_stop (v : Nat → Option Int) (c : Nat) (hc : v c ≠ none) :
    ∃ k r, k ≤ c ∧ (∀ j, j < k → v j = none) ∧ v k = some r := by
  classical
  have hex : ∃ n, v n ≠ none := ⟨c, hc⟩
  refine ⟨Nat.find hex, ?_⟩
  have hk := Nat.find_spec hex
  obtain ⟨r, hr⟩ := Option.ne_none_iff_exists'.1 hk
  refine ⟨r, Nat.find_min' hex hc, ?_, hr⟩
  intro j hj
  have := Nat.find_min hex hj
  simpa using this

/-- C6 as amended: full-mode termination bound.  For a size of at least 1, a
block size of at least 1 and two descriptors that report end-of-range exactly
at the logical offsets at or beyond the size, the walk of `compare_blocks`
returns within `ceil(size / block_size) + 1` evaluations of its loop head, and
any run that returns has started at most `ceil(size / block_size) + 1`
iterations: it has made at most that many queries on the first descriptor, one
per iteration. -/
theorem compare_blocks_terminates (size block_size : Int) (filenameA filenameB : String)
    (fdA fdB : Int) (s : Proc) (hsize : 1 ≤ size) (hbs : 1 ≤ block_size)
    (hA : ∀ off, 0 ≤ off → ((query_ext fdA off s).isERange ↔ size ≤ off))
    (_hB : ∀ off, 0 ≤ off → ((query_ext fdB off s).isERange ↔ size ≤ off)) :
    (∃ r s1, compare_blocks (ceilDiv size block_size + 1) block_size filenameA filenameB
        fdA fdB s = some (r, s1)) ∧
    (∀ fuel r s1, fdA ≠ fdB →
      compare_blocks fuel block_size filenameA filenameB fdA fdB s = some (r, s1) →
      ∃ new, s1.trace = s.trace ++ new ∧ countExt fdA new ≤ ceilDiv size block_size + 1) := by
  have hc : verdictAt fdA fdB s ((ceilDiv size block_size : Nat) * block_size) ≠ none :=
    verdict_of_erange _ _ ((hA _ (Int.mul_nonneg (Int.ofNat_nonneg _) (by omega))).2
      (le_ceilDiv_mul size block_size hsize hbs))
  constructor
  · obtain ⟨k, r, hk, hb, ha⟩ :=
      first_stop (fun j => verdictAt fdA fdB s (j * block_size)) _ hc
    obtain ⟨s1, h⟩ := loop_complete block_size filenameA filenameB fdA fdB k
      (ceilDiv size block_size + 1) 0 0 s r (le_refl 0) (by omega)
      (by simpa using hb) (by simpa using ha)
    exact ⟨r, s1, h⟩
  · intro fuel r s1 hne h
    obtain ⟨k, _, hb, _, hw⟩ :=
      loop_sound block_size filenameA filenameB fdA fdB fuel 0 0 s r s1 (le_refl 0) h
    simp only [zero_add] at hb
    have hk : k ≤ ceilDiv size block_size := by
      by_contra hlt
      exact hc (hb _ (by omega))
    obtain ⟨new, htr, _, hcnt⟩ := hw.trace
    exact ⟨new, htr, by rw [hcnt hne]; omega⟩

theorem verdict_comm (a b : FcntlRes) : verdict a b = verdict b a := by
  unfold verdict
  split_ifs <;> first | rfl | omega

/-- C9: full-mode symmetry.  For a block size of at least 1 and two descriptors
that report end-of-range at every logical offset at or beyond `size`, each
answering as a fixed function of the logical offset: with enough fuel
`compare_blocks` returns in both argument orders, with the same value, one of
1, 0 and -1; and whenever both orders return, the values agree. -/
theorem compare_blocks_symmetric (size block_size : Int) (filenameA filenameB : String)
    (fdA fdB : Int) (s : Proc) (hbs : 1 ≤ block_size)
    (hA : ∀ off, size ≤ off → (query_ext fdA off s).isERange)
    (_hB : ∀ off, size ≤ off → (query_ext fdB off s).isERange) :
    (∃ fuel r s1 s2,
      compare_blocks fuel block_size filenameA filenameB fdA fdB s = some (r, s1) ∧
      compare_blocks fuel block_size filenameB filenameA fdB fdA s = some (r, s2) ∧
      (r = 1 ∨ r = 0 ∨ r = -1)) ∧
    (∀ fuel1 fuel2 r1 r2 s1 s2,
      compare_blocks fuel1 block_size filenameA filenameB fdA fdB s = some (r1, s1) →
      compare_blocks fuel2 block_size filenameB filenameA fdB fdA s = some (r2, s2) →
      r1 = r2) := by
  have hsym : ∀ off, verdictAt fdB fdA s off = verdictAt fdA fdB s off :=
    fun off => verdict_comm _ _
  constructor
  · have hle : size ≤ ((size.toNat : Nat) : Int) * block_size := by
      have h1 : size ≤ ((size.toNat : Nat) : Int) := Int.self_le_toNat size
      have h2 : (0 : Int) ≤ ((size.toNat : Nat) : Int) := Int.ofNat_nonneg _
      nlinarith
    have hc : verdictAt fdA fdB s ((size.toNat : Nat) * block_size) ≠ none :=
      verdict_of_erange _ _ (hA _ hle)
    obtain ⟨k, r, _, hb, ha⟩ :=
      first_stop (fun j => verdictAt fdA fdB s (j * block_size)) _ hc
    obtain ⟨s1, h1⟩ := loop_complete block_size filenameA filenameB fdA fdB k
      (k + 1) 0 0 s r (le_refl 0) (by omega) (by simpa using hb) (by simpa using ha)
    obtain ⟨s2, h2⟩ := loop_complete block_size filenameB filenameA fdB fdA k
      (k + 1) 0 0 s r (le_refl 0) (by omega)
      (by intro j hj; rw [hsym]; simpa using hb j hj) (by rw [hsym]; simpa using ha)
    refine ⟨k + 1, r, s1, s2, h1, h2, ?_⟩
    have hv : verdict (query_ext fdA (k * block_size) s) (query_ext fdB (k * block_size) s)
        = some r := ha
    unfold verdict at hv
    split_ifs at hv <;> simp_all
  · intro fuel1 fuel2 r1 r2 s1 s2 h1 h2
    obtain ⟨k1, _, hb1, ha1, _⟩ :=
      loop_sound block_size filenameA filenameB fdA fdB fuel1 0 0 s r1 s1 (le_refl 0) h1
    obtain ⟨k2, _, hb2, ha2, _⟩ :=
      loop_sound block_size filenameB filenameA fdB fdA fuel2 0 0 s r2 s2 (le_refl 0) h2
    simp only [zero_add, hsym] at hb1 ha1 hb2 ha2
    exact (stop_unique (fun j => verdictAt fdA fdB s (j * block_size)) k1 k2 r1 r2
      hb1 ha1 hb2 ha2).2

theorem lookupFd_setPos (fds : List (Int × OpenFile)) (fd p fd1 : Int) :
    lookupFd (setPos fds fd p) fd1 =
      if fd1 = fd then (lookupFd fds fd).map (fun o => { o with pos := p })
      else lookupFd fds fd1 := by
  induction fds with
  | nil => simp [setPos, lookupFd]
  | cons x rest ih =>
    obtain ⟨k, o⟩ := x
    by_cases hk : k = fd
    · by_cases h1 : fd1 = fd
      · simp [setPos, lookupFd, hk, h1]
      · have : ¬ fd = fd1 := fun h => h1 h.symm
        simp [setPos, lookupFd, hk, h1, this]
    · by_cases h1 : fd1 = fd
      · subst h1
        simp [setPos, lookupFd, hk, ih]
      · by_cases h2 : k = fd1
        · simp [setPos, lookupFd, hk, h1, h2]
        · simp [setPos, lookupFd, hk, h1, h2, ih]

/-- C2: quick mode.  For two distinct descriptors, both positioned at offset 0
as `open` leaves them, on which the seeks to the last byte and all
`F_LOG2PHYS` point queries succeed: `compare_boundary_blocks` returns 1 exactly
when the physical offsets resolved at logical offset 0 are equal and the
physical offsets resolved at the last byte (offset `size - 1`) are equal, and
returns 0 otherwise. -/
theorem compare_boundary_blocks_quick_mode (filenameA filenameB : String) (fdA fdB : Int)
    (s : Proc) (oA oB : OpenFile) (hne : fdA ≠ fdB)
    (hfdA : lookupFd s.fds fdA = some oA) (hfdB : lookupFd s.fds fdB = some oB)
    (hposA : oA.pos = 0) (hposB : oB.pos = 0)
    (hseekA : oA.file.seek_errno = none ∧ 1 ≤ oA.file.size)
    (hseekB : oB.file.seek_errno = none ∧ 1 ≤ oB.file.size)
    (hqA : ∀ p, (oA.file.log2phys p).isOk) (hqB : ∀ p, (oB.file.log2phys p).isOk) :
    ((compare_boundary_blocks filenameA filenameB fdA fdB s).1 = 1 ↔
      ((oA.file.log2phys 0).l2p_devoffset = (oB.file.log2phys 0).l2p_devoffset ∧
        (oA.file.log2phys (oA.file.size - 1)).l2p_devoffset
          = (oB.file.log2phys (oB.file.size - 1)).l2p_devoffset)) ∧
    ((compare_boundary_blocks filenameA filenameB fdA fdB s).1 ≠ 1 →
      (compare_boundary_blocks filenameA filenameB fdA fdB s).1 = 0) := by
  have hne2 : fdB ≠ fdA := Ne.symm hne
  have hA0 := hqA 0
  have hB0 := hqB 0
  have hA1 := hqA (oA.file.size - 1)
  have hB1 := hqB (oB.file.size - 1)
  simp only [FcntlRes.isOk] at hA0 hB0 hA1 hB1
  obtain ⟨hsA, hsizeA⟩ := hseekA
  obtain ⟨hsB, hsizeB⟩ := hseekB
  have e1 : ¬ (oA.file.size + -1 < 0) := by omega
  have e2 : ¬ (oB.file.size + -1 < 0) := by omega
  have e3 : ¬ ((oA.file.log2phys 0).sts < 0) := by omega
  have e4 : ¬ ((oB.file.log2phys 0).sts < 0) := by omega
  have e5 : ¬ ((oA.file.log2phys (oA.file.size + -1)).sts < 0) := by
    have : oA.file.size + -1 = oA.file.size - 1 := by ring
    rw [this]; omega
  have e6 : ¬ ((oB.file.log2phys (oB.file.size + -1)).sts < 0) := by
    have : oB.file.size + -1 = oB.file.size - 1 := by ring
    rw [this]; omega
  have e7 : oA.file.size + -1 = oA.file.size - 1 := by ring
  have e8 : oB.file.size + -1 = oB.file.size - 1 := by ring
  simp only [compare_boundary_blocks, fcntl_LOG2PHYS, query_pos, sys_lseek_END, seek_end_result,
    Proc.log, fprintf_stderr, hfdA, hfdB, hposA, hposB, hsA, hsB, e1, e2, e3, e4, e5, e6,
    lookupFd_setPos, hne, hne2, if_false, if_true, Option.map_some']
  rw [e7, e8]
  split_ifs <;> simp_all

theorem fprintf_stderr_out (text : String) (s : Proc) : (fprintf_stderr text s).out = s.out :=
  rfl

theorem fprintf_stderr_trace (text : String) (s : Proc) :
    (fprintf_stderr text s).trace = s.trace := rfl

theorem fprintf_stdout_out (text : String) (s : Proc) :
    (fprintf_stdout text s).out = s.out ++ [text] := rfl

theorem fprintf_stdout_trace (text : String) (s : Proc) :
    (fprintf_stdout text s).trace = s.trace := rfl

theorem fcntl_LOG2PHYS_out (fd : Int) (s : Proc) : (fcntl_LOG2PHYS fd s).2.out = s.out := rfl

theorem fcntl_LOG2PHYS_trace (fd : Int) (s : Proc) :
    (fcntl_LOG2PHYS fd s).2.trace = s.trace ++ [Call.fcntl_log2phys fd (fcntl_LOG2PHYS fd s).1] :=
  rfl

theorem sys_lseek_END_out (fd off : Int) (s : Proc) : (sys_lseek_END fd off s).2.out = s.out := by
  unfold sys_lseek_END
  split_ifs <;> rfl

theorem sys_lseek_END_trace (fd off : Int) (s : Proc) :
    (sys_lseek_END fd off s).2.trace
      = s.trace ++ [Call.lseek_end fd off (sys_lseek_END fd off s).1.1] := by
  unfold sys_lseek_END
  split_ifs <;> rfl

theorem sys_close_out (fd : Int) (s : Proc) : (sys_close fd s).2.out = s.out := by
  unfold sys_close
  split <;> rfl

theorem sys_close_trace (fd : Int) (s : Proc) :
    (sys_close fd s).2.trace = s.trace ++ [Call.close fd (sys_close fd s).1] := by
  unfold sys_close
  split <;> rfl

theorem sys_open_out (path : String) (s : Proc) : (sys_open path s).2.out = s.out := by
  unfold sys_open
  split <;> rfl

theorem sys_open_trace (path : String) (s : Proc) :
    (sys_open path s).2.trace = s.trace ++ [Call.open_ path (sys_open path s).1.1] := by
  unfold sys_open
  split <;> rfl

theorem verdict_values (a b : FcntlRes) (r : Int) (h : verdict a b = some r) :
    (r = 1 ∨ r = 0 ∨ r = -1) ∧ (r ≠ -1 → ¬ a.isError ∧ ¬ b.isError) := by
  unfold verdict at h
  simp only [FcntlRes.isError]
  split_ifs at h <;> simp_all

theorem compare_blocks_effect (fuel : Nat) (block_size : Int) (filenameA filenameB : String)
    (fdA fdB : Int) (s : Proc) (r : Int) (s1 : Proc)
    (h : compare_blocks fuel block_size filenameA filenameB fdA fdB s = some (r, s1)) :
    (r = 1 ∨ r = 0 ∨ r = -1) ∧ s1.out = s.out ∧ s1.fds = s.fds ∧
      ∃ new, s1.trace = s.trace ++ new ∧ (∀ c ∈ new, c.isQuery = true) ∧
        (r ≠ -1 → ∀ c ∈ new, c.isFailure = false) := by
  obtain ⟨k, _, hb, ha, hw⟩ :=
    loop_sound block_size filenameA filenameB fdA fdB fuel 0 0 s r s1 (le_refl 0) h
  simp only [zero_add] at hb ha
  obtain ⟨new, htr, hall, _⟩ := hw.trace
  have hv := verdict_values _ _ r ha
  refine ⟨hv.1, hw.out, hw.fds, new, htr, ?_, ?_⟩
  · intro c hc
    obtain ⟨fd, j, _, _, hcq⟩ := hall c hc
    rw [hcq]; rfl
  · intro hr c hc
    obtain ⟨fd, j, hj, hfd, hcq⟩ := hall c hc
    simp only [zero_add] at hcq
    rw [hcq]
    simp only [Call.isFailure, decide_eq_false_iff_not]
    rcases Nat.lt_or_ge j k with hlt | hge
    · have hs := (verdictAt_none_iff _ _ _ _).1 (hb j hlt)
      simp only [SamePhysical, FcntlRes.isOk] at hs
      rcases hfd with rfl | rfl <;> omega
    · have hjk : j = k := by omega
      subst hjk
      have := hv.2 hr
      simp only [FcntlRes.isError] at this
      rcases hfd with rfl | rfl
      · exact this.1
      · exact this.2

theorem compare_boundary_blocks_effect (filenameA filenameB : String) (fdA fdB : Int)
    (s : Proc) (r : Int) (s1 : Proc)
    (h : compare_boundary_blocks filenameA filenameB fdA fdB s = (r, s1)) :
    (r = 1 ∨ r = 0 ∨ r = -1) ∧ s1.out = s.out ∧
      ∃ new, s1.trace = s.trace ++ new ∧ (∀ c ∈ new, c.isQuery = true) ∧
        (r ≠ -1 → ∀ c ∈ new, c.isFailure = false) := by
  simp only [compare_boundary_blocks] at h
  split_ifs at h
  all_goals
    simp only [Prod.mk.injEq] at h
    obtain ⟨hr, hs⟩ := h
    subst hr; subst hs
    refine ⟨by simp, ?_, ?_⟩
    · simp only [fprintf_stderr_out, fcntl_LOG2PHYS_out, sys_lseek_END_out]
    simp only [fprintf_stderr_trace, fcntl_LOG2PHYS_trace, sys_lseek_END_trace,
      List.append_assoc]
    refine ⟨_, rfl, ?_, ?_⟩
    · intro c hc
      simp only [List.mem_cons, List.mem_append, List.not_mem_nil, or_false,
        List.singleton_append] at hc
      rcases hc with rfl | rfl | rfl | rfl | rfl | rfl <;> rfl
    · intro hr c hc
      first
        | exact absurd rfl hr
        | (simp only [List.mem_cons, List.mem_append, List.not_mem_nil, or_false,
            List.singleton_append] at hc
           rcases hc with rfl | rfl | rfl | rfl | rfl | rfl <;>
             simp only [Call.isFailure, decide_eq_false_iff_not] <;> assumption)

theorem check_disk_fs_pass (filename : String) (forced : Bool) (s : Proc)
    (h : PassesFs (s.fs filename)) :
    check_disk_fs filename forced s = Ctl.ret () (s.log (callStatfs s.fs filename)) := by
  unfold check_disk_fs sys_statfs callStatfs
  rcases h with h | h
  · simp [h]
  · simp [h]

theorem check_disk_fs_fail (filename : String) (forced : Bool) (s : Proc)
    (h : ¬ PassesFs (s.fs filename)) :
    ∃ s1, check_disk_fs filename forced s = Ctl.exit (failStatus forced) s1 ∧
      s1.out = s.out ++ failOut forced ∧ s1.trace = s.trace ++ [callStatfs s.fs filename] ∧
      s1.err = s.err ++ [filename ++ ": Only APFS is supported: "
        ++ (s.fs filename).f_fstypename ++ "\n"] := by
  simp only [PassesFs, not_or, not_not] at h
  unfold check_disk_fs sys_statfs callStatfs failStatus failOut
  cases forced <;> simp [h, fprintf_stderr, fprintf_stdout, Proc.log]

theorem check_file_pass (filename : String) (forced : Bool) (s : Proc)
    (h : PassesStat (s.fs filename)) :
    check_file filename forced s
      = Ctl.ret (s.fs filename).st (s.log (callStat s.fs filename)) := by
  unfold check_file sys_stat callStat
  simp [h.1, h.2]

theorem check_file_fail (filename : String) (forced : Bool) (s : Proc)
    (h : ¬ PassesStat (s.fs filename)) :
    ∃ s1, check_file filename forced s = Ctl.exit (failStatus forced) s1 ∧
      s1.out = s.out ++ failOut forced ∧ s1.trace = s.trace ++ [callStat s.fs filename] := by
  simp only [PassesStat, not_and_or, not_not] at h
  unfold check_file sys_stat callStat failStatus failOut
  by_cases h1 : (s.fs filename).stat_ret < 0
  · cases forced <;> simp [h1, fprintf_stderr, fprintf_stdout, Proc.log]
  · have h2 : ¬ ((s.fs filename).st.st_mode &&& S_IFMT = S_IFREG) := by
      rcases h with h | h
      · exact absurd h h1
      · exact h
    cases forced <;> simp [h1, h2, fprintf_stderr, fprintf_stdout, Proc.log]

theorem lowestFreeFd_nil : lowestFreeFd [] = 3 := by decide

theorem lowestFreeFd_one (o : OpenFile) : lowestFreeFd [(3, o)] = 4 := by
  simp [lowestFreeFd, lookupFd, List.range_succ, List.find?]

theorem run_comparator_effect (fuel : Nat) (quick : Bool) (block_size : Int)
    (filenameA filenameB : String) (fdA fdB : Int) (s : Proc) (r : Int) (s1 : Proc)
    (h : run_comparator fuel quick block_size filenameA filenameB fdA fdB s = some (r, s1)) :
    (r = 1 ∨ r = 0 ∨ r = -1) ∧ s1.out = s.out ∧
      ∃ new, s1.trace = s.trace ++ new ∧ (∀ c ∈ new, c.isQuery = true) ∧
        (r ≠ -1 → ∀ c ∈ new, c.isFailure = false) := by
  unfold run_comparator at h
  cases quick with
  | true =>
    simp only [if_true, Option.some.injEq] at h
    exact compare_boundary_blocks_effect _ _ _ _ _ _ _ h
  | false =>
    simp only [Bool.false_eq_true, if_false] at h
    obtain ⟨h1, h2, _, h4⟩ := compare_blocks_effect _ _ _ _ _ _ _ _ _ h
    exact ⟨h1, h2, h4⟩

theorem main_compare_run (fuel : Nat) (forced quick : Bool) (block_size : Int)
    (filenameA filenameB : String) (fdA fdB : Int) (s : Proc) (status : Int) (s2 : Proc)
    (h : main_compare fuel forced quick block_size filenameA filenameB fdA fdB s
      = some (status, s2)) :
    ∃ r sC new,
      run_comparator fuel quick block_size filenameA filenameB fdA fdB s = some (r, sC) ∧
      Compared forced fdA fdB s status s2 r new := by
  unfold main_compare at h
  cases hc : run_comparator fuel quick block_size filenameA filenameB fdA fdB s with
  | none => rw [hc] at h; simp at h
  | some p =>
    obtain ⟨r, sC⟩ := p
    rw [hc] at h
    obtain ⟨hval, hout, new, htr, hq, hclean⟩ := run_comparator_effect _ _ _ _ _ _ _ _ _ _ hc
    refine ⟨r, sC, new, rfl, ?_⟩
    simp only at h
    by_cases hr : r = -1
    · subst hr
      cases forced
      · simp only [ne_eq, not_true_eq_false, if_false, Bool.false_eq_true,
          Option.some.injEq, Prod.mk.injEq] at h
        obtain ⟨h1, h2⟩ := h
        subst h1; subst h2
        refine ⟨hval, hq, hclean, ⟨(sys_close fdA sC).1, (sys_close fdB (sys_close fdA sC).2).1, ?_⟩, by simp [failStatus], ?_⟩
        · simp only [sys_close_trace, htr, List.append_assoc, List.singleton_append]
        · simp [sys_close_out, hout, failOut]
      · simp only [ne_eq, not_true_eq_false, if_false, if_true,
          Option.some.injEq, Prod.mk.injEq] at h
        obtain ⟨h1, h2⟩ := h
        subst h1; subst h2
        refine ⟨hval, hq, hclean, ⟨(sys_close fdA sC).1, (sys_close fdB (sys_close fdA sC).2).1, ?_⟩, by simp [failStatus], ?_⟩
        · simp only [fprintf_stdout_trace, sys_close_trace, htr, List.append_assoc,
            List.singleton_append]
        · simp [fprintf_stdout_out, sys_close_out, hout, failOut]
    · simp only [ne_eq, hr, not_false_eq_true, if_true, Option.some.injEq,
        Prod.mk.injEq] at h
      obtain ⟨h1, h2⟩ := h
      subst h1; subst h2
      refine ⟨hval, hq, hclean, ⟨(sys_close fdA sC).1, (sys_close fdB (sys_close fdA sC).2).1, ?_⟩, by simp [hr], ?_⟩
      · simp only [fprintf_stdout_trace, sys_close_trace, htr, List.append_assoc,
          List.singleton_append]
      · simp [fprintf_stdout_out, sys_close_out, hout, hr]

theorem main_eq_main_checked (fuel : Nat) (forced quick : Bool) (filenameA filenameB : String)
    (fs : String → File) (strerror : Int → String)
    (hfsA : PassesFs (fs filenameA)) (hfsB : PassesFs (fs filenameB))
    (hstA : PassesStat (fs filenameA)) (hstB : PassesStat (fs filenameB)) :
    main fuel forced quick filenameA filenameB (Proc.init fs strerror)
      = main_checked fuel forced quick filenameA filenameB (fs filenameA).st (fs filenameB).st
          (checkedState fs strerror filenameA filenameB) := by
  unfold main
  rw [check_disk_fs_pass filenameA forced _ hfsA]
  simp only
  rw [check_disk_fs_pass filenameB forced _ hfsB]
  simp only
  rw [check_file_pass filenameA forced _ hstA]
  simp only
  rw [check_file_pass filenameB forced _ hstB]
  rfl

theorem main_checked_eq_main_compare (fuel : Nat) (forced quick : Bool)
    (filenameA filenameB : String) (fs : String → File) (strerror : Int → String)
    (hpre : ¬ PreFilter (fs filenameA).st (fs filenameB).st)
    (hopA : (fs filenameA).open_errno = none) (hopB : (fs filenameB).open_errno = none) :
    main_checked fuel forced quick filenameA filenameB (fs filenameA).st (fs filenameB).st
        (checkedState fs strerror filenameA filenameB)
      = main_compare fuel forced quick (fs filenameA).st.st_blksize filenameA filenameB 3 4
          (openedState fs strerror filenameA filenameB) := by
  unfold main_checked
  simp only [PreFilter] at hpre
  rw [if_neg hpre]
  have eA : sys_open filenameA (checkedState fs strerror filenameA filenameB)
      = ((3, 0), openedFirst fs strerror filenameA filenameB) := by
    simp [sys_open, checkedState, openedFirst, hopA, lowestFreeFd_nil]
  have eB : sys_open filenameB (openedFirst fs strerror filenameA filenameB)
      = ((4, 0), openedState fs strerror filenameA filenameB) := by
    simp [sys_open, openedState, openedFirst, hopB, lowestFreeFd_one]
  simp only [eA, eB]
  simp

theorem Proc.init_fs (fs : String → File) (strerror : Int → String) :
    (Proc.init fs strerror).fs = fs := rfl

theorem Proc.log_fs (s : Proc) (c : Call) : (s.log c).fs = s.fs := rfl

theorem Proc.log_out (s : Proc) (c : Call) : (s.log c).out = s.out := rfl

theorem Proc.log_trace (s : Proc) (c : Call) : (s.log c).trace = s.trace ++ [c] := rfl

theorem Proc.init_out (fs : String → File) (strerror : Int → String) :
    (Proc.init fs strerror).out = [] := rfl

theorem Proc.init_trace (fs : String → File) (strerror : Int → String) :
    (Proc.init fs strerror).trace = [] := rfl

theorem main_run (fuel : Nat) (forced quick : Bool) (filenameA filenameB : String)
    (fs : String → File) (strerror : Int → String) (status : Int) (s1 : Proc)
    (h : main fuel forced quick filenameA filenameB (Proc.init fs strerror)
      = some (status, s1)) :
    MainRun forced fs filenameA filenameB status s1.out s1.trace := by
  by_cases hfsA : PassesFs (fs filenameA)
  swap
  · obtain ⟨s2, he, hout, htr, _⟩ :=
      check_disk_fs_fail filenameA forced (Proc.init fs strerror) hfsA
    unfold main at h
    rw [he] at h
    simp only [Option.some.injEq, Prod.mk.injEq] at h
    obtain ⟨h1, h2⟩ := h
    subst h1; subst h2
    rw [hout, htr]
    simp only [Proc.log_fs, Proc.init_fs, Proc.log_out, Proc.log_trace, Proc.init_out,
      Proc.init_trace, List.nil_append, List.cons_append]
    exact MainRun.fsA hfsA
  by_cases hfsB : PassesFs (fs filenameB)
  swap
  · obtain ⟨s2, he, hout, htr, _⟩ := check_disk_fs_fail filenameB forced
      ((Proc.init fs strerror).log (callStatfs fs filenameA)) hfsB
    unfold main at h
    rw [check_disk_fs_pass filenameA forced _ hfsA] at h
    simp only [Proc.log_fs, Proc.init_fs] at h
    rw [he] at h
    simp only [Option.some.injEq, Prod.mk.injEq] at h
    obtain ⟨h1, h2⟩ := h
    subst h1; subst h2
    rw [hout, htr]
    simp only [Proc.log_fs, Proc.init_fs, Proc.log_out, Proc.log_trace, Proc.init_out,
      Proc.init_trace, List.nil_append, List.cons_append]
    exact MainRun.fsB hfsA hfsB
  by_cases hstA : PassesStat (fs filenameA)
  swap
  · obtain ⟨s2, he, hout, htr⟩ := check_file_fail filenameA forced
      (((Proc.init fs strerror).log (callStatfs fs filenameA)).log (callStatfs fs filenameB))
      hstA
    unfold main at h
    rw [check_disk_fs_pass filenameA forced _ hfsA] at h
    simp only [Proc.log_fs, Proc.init_fs] at h
    rw [check_disk_fs_pass filenameB forced _ hfsB] at h
    simp only [Proc.log_fs, Proc.init_fs] at h
    rw [he] at h
    simp only [Option.some.injEq, Prod.mk.injEq] at h
    obtain ⟨h1, h2⟩ := h
    subst h1; subst h2
    rw [hout, htr]
    simp only [Proc.log_fs, Proc.init_fs, Proc.log_out, Proc.log_trace, Proc.init_out,
      Proc.init_trace, List.nil_append, List.cons_append]
    exact MainRun.statA hfsA hfsB hstA
  by_cases hstB : PassesStat (fs filenameB)
  swap
  · obtain ⟨s2, he, hout, htr⟩ := check_file_fail filenameB forced
      ((((Proc.init fs strerror).log (callStatfs fs filenameA)).log
        (callStatfs fs filenameB)).log (callStat fs filenameA)) hstB
    unfold main at h
    rw [check_disk_fs_pass filenameA forced _ hfsA] at h
    simp only [Proc.log_fs, Proc.init_fs] at h
    rw [check_disk_fs_pass filenameB forced _ hfsB] at h
    simp only [Proc.log_fs, Proc.init_fs] at h
    rw [check_file_pass filenameA forced _ hstA] at h
    simp only [Proc.log_fs, Proc.init_fs] at h
    rw [he] at h
    simp only [Option.some.injEq, Prod.mk.injEq] at h
    obtain ⟨h1, h2⟩ := h
    subst h1; subst h2
    rw [hout, htr]
    simp only [Proc.log_fs, Proc.init_fs, Proc.log_out, Proc.log_trace, Proc.init_out,
      Proc.init_trace, List.nil_append, List.cons_append]
    exact MainRun.statB hfsA hfsB hstA hstB
  rw [main_eq_main_checked fuel forced quick filenameA filenameB fs strerror hfsA hfsB hstA
    hstB] at h
  by_cases hpre : PreFilter (fs filenameA).st (fs filenameB).st
  · unfold main_checked at h
    rw [if_pos hpre] at h
    simp only [Option.some.injEq, Prod.mk.injEq] at h
    obtain ⟨h1, h2⟩ := h
    subst h1; subst h2
    exact MainRun.filtered hfsA hfsB hstA hstB hpre
  cases hopA : (fs filenameA).open_errno with
  | some e =>
    have hne : (fs filenameA).open_errno ≠ none := by rw [hopA]; simp
    have eA : sys_open filenameA (checkedState fs strerror filenameA filenameB)
        = ((-1, e), (checkedState fs strerror filenameA filenameB).log
            (Call.open_ filenameA (-1))) := by
      simp [sys_open, checkedState, hopA]
    unfold main_checked at h
    rw [if_neg hpre] at h
    simp only [eA] at h
    cases forced
    · simp only [Int.reduceNeg, Int.reduceLT, if_true, Bool.false_eq_true, if_false,
        Option.some.injEq, Prod.mk.injEq] at h
      obtain ⟨h1, h2⟩ := h
      subst h1; subst h2
      exact MainRun.openA hfsA hfsB hstA hstB hpre hne
    · simp only [Int.reduceNeg, Int.reduceLT, if_true, Option.some.injEq,
        Prod.mk.injEq] at h
      obtain ⟨h1, h2⟩ := h
      subst h1; subst h2
      exact MainRun.openA hfsA hfsB hstA hstB hpre hne
  | none =>
    cases hopB : (fs filenameB).open_errno with
    | some e =>
      have hne : (fs filenameB).open_errno ≠ none := by rw [hopB]; simp
      have eA : sys_open filenameA (checkedState fs strerror filenameA filenameB)
          = ((3, 0), openedFirst fs strerror filenameA filenameB) := by
        simp [sys_open, checkedState, openedFirst, hopA, lowestFreeFd_nil]
      have eB : sys_open filenameB (openedFirst fs strerror filenameA filenameB)
          = ((-1, e), (openedFirst fs strerror filenameA filenameB).log
              (Call.open_ filenameB (-1))) := by
        simp [sys_open, openedFirst, hopB]
      unfold main_checked at h
      rw [if_neg hpre] at h
      simp only [eA, eB] at h
      cases forced
      · simp only [Int.reduceNeg, Int.reduceLT, if_true, Bool.false_eq_true, if_false,
          Option.some.injEq, Prod.mk.injEq] at h
        obtain ⟨h1, h2⟩ := h
        subst h1; subst h2
        exact MainRun.openB hfsA hfsB hstA hstB hpre hopA hne
      · simp only [Int.reduceNeg, Int.reduceLT, if_true, Bool.false_eq_true, if_false,
          Option.some.injEq, Prod.mk.injEq] at h
        obtain ⟨h1, h2⟩ := h
        subst h1; subst h2
        exact MainRun.openB hfsA hfsB hstA hstB hpre hopA hne
    | none =>
      rw [main_checked_eq_main_compare fuel forced quick filenameA filenameB fs strerror hpre
        hopA hopB] at h
      obtain ⟨r, sC, new, _, hc⟩ := main_compare_run _ _ _ _ _ _ _ _ _ _ _ h
      obtain ⟨retA, retB, htr⟩ := hc.trace
      rw [hc.out, htr, hc.status]
      exact MainRun.compared r new retA retB hfsA hfsB hstA hstB hpre hopA hopB hc.value
        hc.queries hc.clean

theorem descriptorsAfter_queries (new : List Call) (hq : ∀ c ∈ new, c.isQuery = true) :
    ∀ (held : List Int) (rest : List Call),
      descriptorsAfter held (new ++ rest) = descriptorsAfter held rest := by
  induction new with
  | nil => intro held rest; rfl
  | cons c new ih =>
    intro held rest
    have hc := hq c (List.mem_cons_self _ _)
    have ih2 := ih (fun c hc => hq c (List.mem_cons_of_mem _ hc)) held rest
    cases c <;> simp_all [Call.isQuery, descriptorsAfter]

theorem MainRun.discipline (forced : Bool) (fs : String → File) (filenameA filenameB : String)
    (status : Int) (out : List String) (trace : List Call)
    (hrun : MainRun forced fs filenameA filenameB status out trace) :
    descriptorsAfter [] trace = some [] := by
  cases hrun with
  | fsA => rfl
  | fsB => rfl
  | statA => rfl
  | statB => rfl
  | filtered => rfl
  | openA => rfl
  | openB => rfl
  | compared r new retA retB _ _ _ _ _ _ _ _ hq _ =>
    have e1 : descriptorsAfter []
        (checkCalls fs filenameA filenameB ++ [Call.open_ filenameA 3, Call.open_ filenameB 4]
          ++ new ++ [Call.close 3 retA, Call.close 4 retB])
        = descriptorsAfter [4, 3] (new ++ [Call.close 3 retA, Call.close 4 retB]) := by
      simp only [List.append_assoc]
      rfl
    rw [e1, descriptorsAfter_queries new hq]
    rfl

/-- C8: descriptor discipline.  In every run of `main` that exits, whatever
the mode flags and wherever the run ends, the calls made keep the descriptor
discipline: every `close` is on a descriptor that is open at that point (so
none is closed twice and none is closed that was not opened), and no
descriptor is left open at exit. -/
theorem main_descriptor_discipline (fuel : Nat) (forced quick : Bool)
    (filenameA filenameB : String) (fs : String → File) (strerror : Int → String)
    (status : Int) (s1 : Proc)
    (h : main fuel forced quick filenameA filenameB (Proc.init fs strerror)
      = some (status, s1)) :
    descriptorsAfter [] s1.trace = some [] :=
  MainRun.discipline forced fs filenameA filenameB status s1.out s1.trace
    (main_run fuel forced quick filenameA filenameB fs strerror status s1 h)

theorem MainRun.failure (forced : Bool) (fs : String → File) (filenameA filenameB : String)
    (status : Int) (out : List String) (trace : List Call)
    (hrun : MainRun forced fs filenameA filenameB status out trace)
    (hfail : ∃ c ∈ trace, c.isFailure = true) :
    status = failStatus forced ∧ out = failOut forced := by
  have hfsP : ∀ p, PassesFs (fs p) → (callStatfs fs p).isFailure = false := by
    intro p hp
    simp only [callStatfs, Call.isFailure, decide_eq_false_iff_not, not_and, not_not]
    intro h0
    rcases hp with hp | hp
    · exact absurd h0 hp
    · exact hp
  have hstP : ∀ p, PassesStat (fs p) → (callStat fs p).isFailure = false := by
    intro p hp
    simp only [callStat, Call.isFailure, decide_eq_false_iff_not, not_or, not_not]
    exact hp
  obtain ⟨c, hc, hcf⟩ := hfail
  cases hrun with
  | fsA => exact ⟨rfl, rfl⟩
  | fsB => exact ⟨rfl, rfl⟩
  | statA => exact ⟨rfl, rfl⟩
  | statB => exact ⟨rfl, rfl⟩
  | openA => exact ⟨rfl, rfl⟩
  | openB => exact ⟨rfl, rfl⟩
  | filtered hfsA hfsB hstA hstB _ =>
    exfalso
    simp only [checkCalls, List.mem_cons, List.mem_singleton, List.not_mem_nil, or_false] at hc
    have := hfsP _ hfsA
    have := hfsP _ hfsB
    have := hstP _ hstA
    have := hstP _ hstB
    rcases hc with rfl | rfl | rfl | rfl <;> simp_all
  | compared r new retA retB hfsA hfsB hstA hstB _ _ _ _ _ hclean =>
    by_cases hr : r = -1
    · simp [hr]
    · exfalso
      have hnew := hclean hr
      simp only [checkCalls, List.mem_cons, List.mem_singleton, List.not_mem_nil, or_false,
        List.mem_append] at hc
      have := hfsP _ hfsA
      have := hfsP _ hfsB
      have := hstP _ hstA
      have := hstP _ hstB
      rcases hc with ((((rfl | rfl | rfl | rfl) | (rfl | rfl)) | hc) | (rfl | rfl))
      · simp_all
      · simp_all
      · simp_all
      · simp_all
      · simp [Call.isFailure] at hcf
      · simp [Call.isFailure] at hcf
      · rw [hnew c hc] at hcf; simp at hcf
      · simp [Call.isFailure] at hcf
      · simp [Call.isFailure] at hcf

/-- Every run of `main` that exits and whose trace holds a call answered with
a failure ends with the failure output: the line "0" and status 0 when forced,
nothing on stdout and a non-zero status when not. -/
theorem main_failing_call_outcome (fuel : Nat) (forced quick : Bool)
    (filenameA filenameB : String) (fs : String → File) (strerror : Int → String)
    (status : Int) (s1 : Proc)
    (h : main fuel forced quick filenameA filenameB (Proc.init fs strerror)
      = some (status, s1))
    (hfail : ∃ c ∈ s1.trace, c.isFailure = true) :
    (forced = true → s1.out = ["0\n"] ∧ status = 0) ∧
    (forced = false → s1.out = [] ∧ status ≠ 0) := by
  obtain ⟨hs, ho⟩ := MainRun.failure forced fs filenameA filenameB status s1.out s1.trace
    (main_run fuel forced quick filenameA filenameB fs strerror status s1 h) hfail
  rw [hs, ho]
  constructor
  · intro hf; subst hf; exact ⟨rfl, rfl⟩
  · intro hf; subst hf; exact ⟨rfl, by decide⟩

/-- C3: pre-filter.  For two paths that pass the file system and file
eligibility checks: if the two files have the same device and inode, or
different devices, or different sizes, then for every setting of the force
and quick flags (and any amount of fuel) the run exits with status 0 having
written the single line "0" to stdout, and the only system calls it made are
the two `statfs` and the two `stat` calls: no `open`, no block resolution. -/
theorem main_prefilter (fuel : Nat) (forced quick : Bool) (filenameA filenameB : String)
    (fs : String → File) (strerror : Int → String)
    (hfsA : PassesFs (fs filenameA)) (hfsB : PassesFs (fs filenameB))
    (hstA : PassesStat (fs filenameA)) (hstB : PassesStat (fs filenameB))
    (hcase : ((fs filenameA).st.st_dev = (fs filenameB).st.st_dev ∧
        (fs filenameA).st.st_ino = (fs filenameB).st.st_ino) ∨
      (fs filenameA).st.st_dev ≠ (fs filenameB).st.st_dev ∨
      (fs filenameA).st.st_size ≠ (fs filenameB).st.st_size) :
    ∃ s1, main fuel forced quick filenameA filenameB (Proc.init fs strerror)
        = some (0, s1) ∧
      s1.out = ["0\n"] ∧
      s1.trace = [Call.statfs filenameA (fs filenameA).statfs_ret (fs filenameA).f_fstypename,
        Call.statfs filenameB (fs filenameB).statfs_ret (fs filenameB).f_fstypename,
        Call.stat filenameA (fs filenameA).stat_ret (fs filenameA).st,
        Call.stat filenameB (fs filenameB).stat_ret (fs filenameB).st] ∧
      s1.fds = [] := by
  have hpre : PreFilter (fs filenameA).st (fs filenameB).st := by
    rcases hcase with h | h | h
    · exact Or.inr (Or.inr (Or.inr h.2))
    · exact Or.inl h
    · exact Or.inr (Or.inl h)
  rw [main_eq_main_checked fuel forced quick filenameA filenameB fs strerror hfsA hfsB hstA
    hstB]
  unfold main_checked
  rw [if_pos hpre]
  exact ⟨_, rfl, rfl, rfl, rfl⟩

theorem query_ext_openedState_A (fs : String → File) (strerror : Int → String)
    (filenameA filenameB : String) (off : Int) :
    query_ext 3 off (openedState fs strerror filenameA filenameB)
      = (fs filenameA).log2phys_ext off := by
  simp [query_ext, openedState, lookupFd]

theorem query_ext_openedState_B (fs : String → File) (strerror : Int → String)
    (filenameA filenameB : String) (off : Int) :
    query_ext 4 off (openedState fs strerror filenameA filenameB)
      = (fs filenameB).log2phys_ext off := by
  simp [query_ext, openedState, lookupFd]

theorem verdict_tail (a b : FcntlRes) (ha : a.isERange) (hb : b.isOk) :
    verdict a b = some 0 := by
  simp only [FcntlRes.isERange, FcntlRes.isOk] at ha hb
  unfold verdict
  have h1 : ¬ (b.sts < 0 ∧ b.errno = ERANGE) := by omega
  have h2 : ¬ (b.sts < 0) := by omega
  simp [ha, h1, h2]

theorem tail_mismatch_walk (block_size : Int) (filenameA filenameB : String) (fdA fdB : Int)
    (s : Proc) (k : Nat)
    (hA : (query_ext fdA (k * block_size) s).isERange)
    (hB : (query_ext fdB (k * block_size) s).isOk)
    (hprev : ∀ j : Nat, j < k → SamePhysical fdA fdB s (j * block_size)) :
    (∃ sC, compare_blocks (k + 1) block_size filenameA filenameB fdA fdB s = some (0, sC)) ∧
    (∀ fuel r s1,
      compare_blocks fuel block_size filenameA filenameB fdA fdB s = some (r, s1) → r = 0) := by
  have hb : ∀ j : Nat, j < k → verdictAt fdA fdB s (j * block_size) = none :=
    fun j hj => (verdictAt_none_iff _ _ _ _).2 (hprev j hj)
  have ha : verdictAt fdA fdB s (k * block_size) = some 0 := verdict_tail _ _ hA hB
  constructor
  · exact loop_complete block_size filenameA filenameB fdA fdB k (k + 1) 0 0 s 0 (le_refl 0)
      (Nat.lt_succ_self k) (by simpa using hb) (by simpa using ha)
  · intro fuel r s1 h
    obtain ⟨k1, _, hb1, ha1, _⟩ :=
      loop_sound block_size filenameA filenameB fdA fdB fuel 0 0 s r s1 (le_refl 0) h
    simp only [zero_add] at hb1 ha1
    exact (stop_unique (fun j => verdictAt fdA fdB s (j * block_size)) k1 k r 0
      hb1 ha1 hb ha).2

/-- C7 as amended: full-mode tail mismatch.  When at a stride offset the first
descriptor reports end-of-range and the second resolves successfully, all
earlier stride offsets having matched, `compare_blocks` returns 0 (not a
clone): it does so with `k + 1` units of fuel, and every run that returns,
returns 0.  Accordingly the run of `main` in full mode on two such files that
pass the checks, the pre-filter and `open` writes the line "0" and exits 0,
with force mode on and with force mode off alike. -/
theorem compare_blocks_tail_mismatch (filenameA filenameB : String) (k : Nat) :
    (∀ (block_size fdA fdB : Int) (s : Proc),
      (query_ext fdA (k * block_size) s).isERange →
      (query_ext fdB (k * block_size) s).isOk →
      (∀ j : Nat, j < k → SamePhysical fdA fdB s (j * block_size)) →
      (∃ sC, compare_blocks (k + 1) block_size filenameA filenameB fdA fdB s = some (0, sC)) ∧
      (∀ fuel r s1,
        compare_blocks fuel block_size filenameA filenameB fdA fdB s = some (r, s1) → r = 0)) ∧
    (∀ (forced : Bool) (fs : String → File) (strerror : Int → String),
      PassesFs (fs filenameA) → PassesFs (fs filenameB) →
      PassesStat (fs filenameA) → PassesStat (fs filenameB) →
      ¬ PreFilter (fs filenameA).st (fs filenameB).st →
      (fs filenameA).open_errno = none → (fs filenameB).open_errno = none →
      ((fs filenameA).log2phys_ext (k * (fs filenameA).st.st_blksize)).isERange →
      ((fs filenameB).log2phys_ext (k * (fs filenameA).st.st_blksize)).isOk →
      (∀ j : Nat, j < k →
        ((fs filenameA).log2phys_ext (j * (fs filenameA).st.st_blksize)).isOk ∧
        ((fs filenameB).log2phys_ext (j * (fs filenameA).st.st_blksize)).isOk ∧
        ((fs filenameA).log2phys_ext (j * (fs filenameA).st.st_blksize)).l2p_devoffset
          = ((fs filenameB).log2phys_ext (j * (fs filenameA).st.st_blksize)).l2p_devoffset) →
      ∃ s1, main (k + 1) forced false filenameA filenameB (Proc.init fs strerror)
          = some (0, s1) ∧ s1.out = ["0\n"]) := by
  constructor
  · intro block_size fdA fdB s hA hB hprev
    exact tail_mismatch_walk block_size filenameA filenameB fdA fdB s k hA hB hprev
  · intro forced fs strerror hfsA hfsB hstA hstB hpre hopA hopB hA hB hprev
    obtain ⟨sC, hC⟩ := (tail_mismatch_walk (fs filenameA).st.st_blksize filenameA filenameB 3 4
      (openedState fs strerror filenameA filenameB) k
      (by rw [query_ext_openedState_A]; exact hA)
      (by rw [query_ext_openedState_B]; exact hB)
      (by
        intro j hj
        simp only [SamePhysical, query_ext_openedState_A, query_ext_openedState_B]
        exact hprev j hj)).1
    have hout := (compare_blocks_effect _ _ _ _ _ _ _ _ _ hC).2.1
    rw [main_eq_main_checked (k + 1) forced false filenameA filenameB fs strerror hfsA hfsB
      hstA hstB, main_checked_eq_main_compare (k + 1) forced false filenameA filenameB fs
      strerror hpre hopA hopB]
    unfold main_compare run_comparator
    simp only [Bool.false_eq_true, if_false, hC]
    refine ⟨_, rfl, ?_⟩
    simp only [fprintf_stdout_out, sys_close_out, hout]
    rfl

/-- The offsets of the walk stay in range: when the first descriptor
reports end-of-range at every offset at or beyond `size`, every call of a walk
that returns is a stride query at an offset in `[0, size + block_size)`.  For a
file size that fits `off_t` with a block size to spare, the addition
`offset += block_size` therefore never leaves the 64-bit range. -/
theorem compare_blocks_offsets_bounded (size block_size : Int)
    (filenameA filenameB : String) (fdA fdB : Int) (s : Proc) (hsize : 0 ≤ size)
    (hbs : 1 ≤ block_size)
    (hA : ∀ off, 0 ≤ off → size ≤ off → (query_ext fdA off s).isERange)
    (fuel : Nat) (r : Int) (s1 : Proc)
    (h : compare_blocks fuel block_size filenameA filenameB fdA fdB s = some (r, s1)) :
    ∃ new, s1.trace = s.trace ++ new ∧
      ∀ c ∈ new, ∃ fd off res, c = Call.fcntl_log2phys_ext fd off res ∧
        0 ≤ off ∧ off < size + block_size := by
  obtain ⟨k, _, hb, _, hw⟩ :=
    loop_sound block_size filenameA filenameB fdA fdB fuel 0 0 s r s1 (le_refl 0) h
  simp only [zero_add] at hb
  obtain ⟨new, htr, hall, _⟩ := hw.trace
  refine ⟨new, htr, ?_⟩
  intro c hc
  obtain ⟨fd, j, hj, _, hcq⟩ := hall c hc
  simp only [zero_add] at hcq
  have hj0 : (0 : Int) ≤ (j : Int) * block_size :=
    Int.mul_nonneg (Int.ofNat_nonneg j) (by omega)
  refine ⟨fd, _, _, hcq, hj0, ?_⟩
  cases j with
  | zero => simp; omega
  | succ i =>
    have hi := (verdictAt_none_iff _ _ _ _).1 (hb i (by omega))
    have hi0 : (0 : Int) ≤ (i : Int) * block_size :=
      Int.mul_nonneg (Int.ofNat_nonneg i) (by omega)
    have hlt : (i : Int) * block_size < size := by
      by_contra hge
      have her := hA _ hi0 (by omega)
      simp only [SamePhysical, FcntlRes.isOk] at hi
      simp only [FcntlRes.isERange] at her
      omega
    have : ((i + 1 : Nat) : Int) * block_size = (i : Int) * block_size + block_size := by
      push_cast; ring
    omega

theorem verdict_error (a b : FcntlRes) (h : a.isError ∨ b.isError) :
    verdict a b = some (-1) := by
  simp only [FcntlRes.isError] at h
  unfold verdict
  split_ifs <;> first | rfl | (exfalso; omega)

theorem full_error_returns (fs : String → File) (strerror : Int → String)
    (filenameA filenameB : String) (block_size : Int)
    (herr : FullError (fs filenameA) (fs filenameB) block_size) :
    (∃ fuel0, ∀ fuel, fuel0 ≤ fuel → ∃ sC,
      compare_blocks fuel block_size filenameA filenameB 3 4
        (openedState fs strerror filenameA filenameB) = some (-1, sC)) ∧
    (∀ fuel r sC, compare_blocks fuel block_size filenameA filenameB 3 4
        (openedState fs strerror filenameA filenameB) = some (r, sC) → r = -1) := by
  obtain ⟨k, hprev, hk⟩ := herr
  have hb : ∀ j : Nat, j < k →
      verdictAt 3 4 (openedState fs strerror filenameA filenameB) (j * block_size) = none := by
    intro j hj
    rw [verdictAt_none_iff]
    simp only [SamePhysical, query_ext_openedState_A, query_ext_openedState_B]
    exact hprev j hj
  have ha : verdictAt 3 4 (openedState fs strerror filenameA filenameB) (k * block_size)
      = some (-1) := by
    simp only [verdictAt, query_ext_openedState_A, query_ext_openedState_B]
    exact verdict_error _ _ hk
  constructor
  · refine ⟨k + 1, ?_⟩
    intro fuel hfuel
    exact loop_complete block_size filenameA filenameB 3 4 k fuel 0 0 _ (-1) (le_refl 0)
      (by omega) (by simpa using hb) (by simpa using ha)
  · intro fuel r sC h
    obtain ⟨k1, _, hb1, ha1, _⟩ :=
      loop_sound block_size filenameA filenameB 3 4 fuel 0 0 _ r sC (le_refl 0) h
    simp only [zero_add] at hb1 ha1
    exact (stop_unique
      (fun j => verdictAt 3 4 (openedState fs strerror filenameA filenameB) (j * block_size))
      k1 k r (-1) hb1 ha1 hb ha).2

theorem fcntl_LOG2PHYS_fds (fd : Int) (s : Proc) : (fcntl_LOG2PHYS fd s).2.fds = s.fds := rfl

theorem fcntl_LOG2PHYS_fst (fd : Int) (s : Proc) (o : OpenFile)
    (h : lookupFd s.fds fd = some o) : (fcntl_LOG2PHYS fd s).1 = o.file.log2phys o.pos := by
  simp [fcntl_LOG2PHYS, query_pos, h]

theorem sys_lseek_END_lt (fd : Int) (s : Proc) (o : OpenFile)
    (h : lookupFd s.fds fd = some o) :
    (sys_lseek_END fd (-1) s).1.1 < 0 ↔ SeekFails o.file := by
  simp only [sys_lseek_END, seek_end_result, h, SeekFails]
  cases hs : o.file.seek_errno with
  | some e => simp
  | none =>
    simp only [ne_eq, not_true_eq_false, false_or]
    split_ifs <;> simp <;> omega

theorem sys_lseek_END_fds (fd : Int) (s : Proc) (o : OpenFile)
    (h : lookupFd s.fds fd = some o) (hok : ¬ SeekFails o.file) :
    (sys_lseek_END fd (-1) s).2.fds = setPos s.fds fd (o.file.size - 1) := by
  simp only [SeekFails, not_or, not_not, not_lt] at hok
  have h1 : ¬ (o.file.size + -1 < 0) := by omega
  have h2 : o.file.size + -1 = o.file.size - 1 := by ring
  have h3 : ¬ (o.file.size < 1) := by omega
  simp [sys_lseek_END, seek_end_result, h, hok.1, h1, h2, h3]

theorem quick_error_value_of (filenameA filenameB : String) (fdA fdB : Int)
    (s : Proc) (oA oB : OpenFile) (hne : fdA ≠ fdB)
    (hfdA : lookupFd s.fds fdA = some oA) (hfdB : lookupFd s.fds fdB = some oB)
    (hposA : oA.pos = 0) (hposB : oB.pos = 0)
    (herr : QuickError oA.file oB.file) :
    (compare_boundary_blocks filenameA filenameB fdA fdB s).1 = -1 := by
  have hne2 : fdB ≠ fdA := Ne.symm hne
  have hA0 : (fcntl_LOG2PHYS fdA s).1 = oA.file.log2phys 0 := by
    rw [fcntl_LOG2PHYS_fst fdA s oA hfdA, hposA]
  have hB0 : (fcntl_LOG2PHYS fdB (fcntl_LOG2PHYS fdA s).2).1 = oB.file.log2phys 0 := by
    rw [fcntl_LOG2PHYS_fst fdB _ oB (by rw [fcntl_LOG2PHYS_fds]; exact hfdB), hposB]
  have hfdA2 : lookupFd (fcntl_LOG2PHYS fdB (fcntl_LOG2PHYS fdA s).2).2.fds fdA = some oA := by
    rw [fcntl_LOG2PHYS_fds, fcntl_LOG2PHYS_fds]; exact hfdA
  have hfdB2 : lookupFd (fcntl_LOG2PHYS fdB (fcntl_LOG2PHYS fdA s).2).2.fds fdB = some oB := by
    rw [fcntl_LOG2PHYS_fds, fcntl_LOG2PHYS_fds]; exact hfdB
  have hSA := sys_lseek_END_lt fdA _ oA hfdA2
  unfold compare_boundary_blocks
  simp only [hA0, hB0]
  by_cases h1 : (oA.file.log2phys 0).sts < 0
  · simp [h1]
  by_cases h2 : (oB.file.log2phys 0).sts < 0
  · simp [h1, h2]
  by_cases h3 : (oA.file.log2phys 0).l2p_devoffset = (oB.file.log2phys 0).l2p_devoffset
  swap
  · exfalso
    unfold QuickError at herr
    rcases herr with h | h | h
    · exact h1 h
    · exact h2 h
    · exact h3 h.1
  by_cases h4 : SeekFails oA.file
  · simp [h1, h2, h3, hSA.2 h4]
  have h4n : ¬ (sys_lseek_END fdA (-1) (fcntl_LOG2PHYS fdB (fcntl_LOG2PHYS fdA s).2).2).1.1 < 0 :=
    fun h => h4 (hSA.1 h)
  have hfds3 := sys_lseek_END_fds fdA _ oA hfdA2 h4
  have hfdB3 : lookupFd
      (sys_lseek_END fdA (-1) (fcntl_LOG2PHYS fdB (fcntl_LOG2PHYS fdA s).2).2).2.fds fdB
      = some oB := by
    rw [hfds3, lookupFd_setPos, if_neg hne2]; exact hfdB2
  have hfdA3 : lookupFd
      (sys_lseek_END fdA (-1) (fcntl_LOG2PHYS fdB (fcntl_LOG2PHYS fdA s).2).2).2.fds fdA
      = some { oA with pos := oA.file.size - 1 } := by
    rw [hfds3, lookupFd_setPos, if_pos rfl, hfdA2]; rfl
  have hSB := sys_lseek_END_lt fdB _ oB hfdB3
  by_cases h5 : SeekFails oB.file
  · simp [h1, h2, h3, h4n, hSB.2 h5]
  have h5n : ¬ (sys_lseek_END fdB (-1) (sys_lseek_END fdA (-1)
      (fcntl_LOG2PHYS fdB (fcntl_LOG2PHYS fdA s).2).2).2).1.1 < 0 := fun h => h5 (hSB.1 h)
  have hfds4 := sys_lseek_END_fds fdB _ oB hfdB3 h5
  have hA1 : (fcntl_LOG2PHYS fdA (sys_lseek_END fdB (-1)
      (sys_lseek_END fdA (-1) (fcntl_LOG2PHYS fdB (fcntl_LOG2PHYS fdA s).2).2).2).2).1
      = oA.file.log2phys (oA.file.size - 1) := by
    rw [fcntl_LOG2PHYS_fst fdA _ { oA with pos := oA.file.size - 1 }
      (by rw [hfds4, lookupFd_setPos, if_neg hne]; exact hfdA3)]
  have hB1 : (fcntl_LOG2PHYS fdB (fcntl_LOG2PHYS fdA (sys_lseek_END fdB (-1)
      (sys_lseek_END fdA (-1) (fcntl_LOG2PHYS fdB (fcntl_LOG2PHYS fdA s).2).2).2).2).2).1
      = oB.file.log2phys (oB.file.size - 1) := by
    rw [fcntl_LOG2PHYS_fst fdB _ { oB with pos := oB.file.size - 1 }
      (by rw [fcntl_LOG2PHYS_fds, hfds4, lookupFd_setPos, if_pos rfl, hfdB3]; rfl)]
  by_cases h6 : (oA.file.log2phys (oA.file.size - 1)).sts < 0
  · simp [h1, h2, h3, h4n, h5n, hA1, h6]
  by_cases h7 : (oB.file.log2phys (oB.file.size - 1)).sts < 0
  · simp [h1, h2, h3, h4n, h5n, hA1, hB1, h6, h7]
  exfalso
  unfold QuickError at herr
  rcases herr with h | h | ⟨_, h | h | h | h⟩
  · exact h1 h
  · exact h2 h
  · exact h4 h
  · exact h5 h
  · exact h6 h
  · exact h7 h

theorem not_passesFs_iff (f : File) : ¬ PassesFs f ↔ NotApfs f := by
  simp only [PassesFs, NotApfs, not_or, not_not]

theorem not_passesStat_iff (f : File) : ¬ PassesStat f ↔ CannotStat f ∨ NotRegular f := by
  simp only [PassesStat, CannotStat, NotRegular]
  by_cases h : f.stat_ret < 0 <;> simp [h]

theorem main_checks_fail (fuel : Nat) (forced quick : Bool) (filenameA filenameB : String)
    (fs : String → File) (strerror : Int → String)
    (h : ¬ (PassesFs (fs filenameA) ∧ PassesFs (fs filenameB) ∧ PassesStat (fs filenameA) ∧
      PassesStat (fs filenameB))) :
    ∃ s1, main fuel forced quick filenameA filenameB (Proc.init fs strerror)
        = some (failStatus forced, s1) ∧ s1.out = failOut forced := by
  by_cases hfsA : PassesFs (fs filenameA)
  swap
  · obtain ⟨s2, he, hout, _⟩ :=
      check_disk_fs_fail filenameA forced (Proc.init fs strerror) hfsA
    unfold main
    rw [he]
    exact ⟨s2, rfl, by simpa [Proc.init] using hout⟩
  by_cases hfsB : PassesFs (fs filenameB)
  swap
  · obtain ⟨s2, he, hout, _⟩ := check_disk_fs_fail filenameB forced
      ((Proc.init fs strerror).log (callStatfs fs filenameA)) hfsB
    unfold main
    rw [check_disk_fs_pass filenameA forced _ hfsA]
    simp only [Proc.log_fs, Proc.init_fs]
    rw [he]
    exact ⟨s2, rfl, by simpa [Proc.init, Proc.log] using hout⟩
  by_cases hstA : PassesStat (fs filenameA)
  swap
  · obtain ⟨s2, he, hout, _⟩ := check_file_fail filenameA forced
      (((Proc.init fs strerror).log (callStatfs fs filenameA)).log (callStatfs fs filenameB))
      hstA
    unfold main
    rw [check_disk_fs_pass filenameA forced _ hfsA]
    simp only [Proc.log_fs, Proc.init_fs]
    rw [check_disk_fs_pass filenameB forced _ hfsB]
    simp only [Proc.log_fs, Proc.init_fs]
    rw [he]
    exact ⟨s2, rfl, by simpa [Proc.init, Proc.log] using hout⟩
  by_cases hstB : PassesStat (fs filenameB)
  swap
  · obtain ⟨s2, he, hout, _⟩ := check_file_fail filenameB forced
      ((((Proc.init fs strerror).log (callStatfs fs filenameA)).log
        (callStatfs fs filenameB)).log (callStat fs filenameA)) hstB
    unfold main
    rw [check_disk_fs_pass filenameA forced _ hfsA]
    simp only [Proc.log_fs, Proc.init_fs]
    rw [check_disk_fs_pass filenameB forced _ hfsB]
    simp only [Proc.log_fs, Proc.init_fs]
    rw [check_file_pass filenameA forced _ hstA]
    simp only [Proc.log_fs, Proc.init_fs]
    rw [he]
    exact ⟨s2, rfl, by simpa [Proc.init, Proc.log] using hout⟩
  exact absurd ⟨hfsA, hfsB, hstA, hstB⟩ h

theorem main_open_fail (fuel : Nat) (forced quick : Bool) (filenameA filenameB : String)
    (fs : String → File) (strerror : Int → String)
    (hfsA : PassesFs (fs filenameA)) (hfsB : PassesFs (fs filenameB))
    (hstA : PassesStat (fs filenameA)) (hstB : PassesStat (fs filenameB))
    (hpre : ¬ PreFilter (fs filenameA).st (fs filenameB).st)
    (hopen : CannotOpen (fs filenameA) ∨ CannotOpen (fs filenameB)) :
    ∃ s1, main fuel forced quick filenameA filenameB (Proc.init fs strerror)
        = some (failStatus forced, s1) ∧ s1.out = failOut forced := by
  rw [main_eq_main_checked fuel forced quick filenameA filenameB fs strerror hfsA hfsB hstA
    hstB]
  unfold main_checked
  rw [if_neg hpre]
  cases hopA : (fs filenameA).open_errno with
  | some e =>
    have eA : sys_open filenameA (checkedState fs strerror filenameA filenameB)
        = ((-1, e), (checkedState fs strerror filenameA filenameB).log
            (Call.open_ filenameA (-1))) := by
      simp [sys_open, checkedState, hopA]
    simp only [eA]
    cases forced
    · exact ⟨_, rfl, rfl⟩
    · exact ⟨_, rfl, rfl⟩
  | none =>
    have hB : (fs filenameB).open_errno ≠ none := by
      rcases hopen with h | h
      · exact absurd hopA h
      · exact h
    obtain ⟨e, hopB⟩ := Option.ne_none_iff_exists'.1 hB
    have eA : sys_open filenameA (checkedState fs strerror filenameA filenameB)
        = ((3, 0), openedFirst fs strerror filenameA filenameB) := by
      simp [sys_open, checkedState, openedFirst, hopA, lowestFreeFd_nil]
    have eB : sys_open filenameB (openedFirst fs strerror filenameA filenameB)
        = ((-1, e), (openedFirst fs strerror filenameA filenameB).log
            (Call.open_ filenameB (-1))) := by
      simp [sys_open, openedFirst, hopB]
    simp only [eA, eB]
    cases forced
    · exact ⟨_, rfl, rfl⟩
    · exact ⟨_, rfl, rfl⟩

theorem main_comparator_fail (fuel : Nat) (forced quick : Bool) (filenameA filenameB : String)
    (fs : String → File) (strerror : Int → String)
    (hfsA : PassesFs (fs filenameA)) (hfsB : PassesFs (fs filenameB))
    (hstA : PassesStat (fs filenameA)) (hstB : PassesStat (fs filenameB))
    (hpre : ¬ PreFilter (fs filenameA).st (fs filenameB).st)
    (hopA : (fs filenameA).open_errno = none) (hopB : (fs filenameB).open_errno = none)
    (sC : Proc)
    (hrun : run_comparator fuel quick (fs filenameA).st.st_blksize filenameA filenameB 3 4
      (openedState fs strerror filenameA filenameB) = some (-1, sC)) :
    ∃ s1, main fuel forced quick filenameA filenameB (Proc.init fs strerror)
        = some (failStatus forced, s1) ∧ s1.out = failOut forced := by
  have hout := (run_comparator_effect _ _ _ _ _ _ _ _ _ _ hrun).2.1
  rw [main_eq_main_checked fuel forced quick filenameA filenameB fs strerror hfsA hfsB hstA
    hstB, main_checked_eq_main_compare fuel forced quick filenameA filenameB fs strerror
    hpre hopA hopB]
  unfold main_compare
  rw [hrun]
  cases forced
  · refine ⟨_, rfl, ?_⟩
    simp only [sys_close_out, hout]
    rfl
  · refine ⟨_, rfl, ?_⟩
    simp only [fprintf_stdout_out, sys_close_out, hout]
    rfl

theorem comparator_error_returns (quick : Bool) (fs : String → File)
    (strerror : Int → String) (filenameA filenameB : String) (block_size : Int)
    (herr : ComparatorError quick (fs filenameA) (fs filenameB) block_size) :
    (∃ fuel0, ∀ fuel, fuel0 ≤ fuel → ∃ sC,
      run_comparator fuel quick block_size filenameA filenameB 3 4
        (openedState fs strerror filenameA filenameB) = some (-1, sC)) ∧
    (∀ fuel r sC, run_comparator fuel quick block_size filenameA filenameB 3 4
        (openedState fs strerror filenameA filenameB) = some (r, sC) → r = -1) := by
  rcases herr with ⟨hq, herr⟩ | ⟨hq, herr⟩
  · subst hq
    have hv := quick_error_value_of filenameA filenameB 3 4
      (openedState fs strerror filenameA filenameB)
      { file := fs filenameA, pos := 0 } { file := fs filenameB, pos := 0 }
      (by decide) (by simp [openedState, lookupFd]) (by simp [openedState, lookupFd])
      rfl rfl herr
    constructor
    · refine ⟨0, fun fuel _ => ⟨(compare_boundary_blocks filenameA filenameB 3 4
        (openedState fs strerror filenameA filenameB)).2, ?_⟩⟩
      simp only [run_comparator, if_true]
      rw [← hv]
    · intro fuel r sC h
      simp only [run_comparator, if_true, Option.some.injEq] at h
      rw [h] at hv
      exact hv
  · subst hq
    obtain ⟨h1, h2⟩ := full_error_returns fs strerror filenameA filenameB block_size herr
    constructor
    · obtain ⟨fuel0, h⟩ := h1
      refine ⟨fuel0, fun fuel hf => ?_⟩
      obtain ⟨sC, hC⟩ := h fuel hf
      exact ⟨sC, by simpa [run_comparator] using hC⟩
    · intro fuel r sC h
      exact h2 fuel r sC (by simpa [run_comparator] using h)

theorem failure_outcome (forced quick : Bool) (filenameA filenameB : String)
    (fs : String → File) (strerror : Int → String)
    (hfail : FailureOccurs quick fs filenameA filenameB) :
    (∃ fuel0, ∀ fuel, fuel0 ≤ fuel → ∃ s1,
      main fuel forced quick filenameA filenameB (Proc.init fs strerror)
        = some (failStatus forced, s1) ∧ s1.out = failOut forced) ∧
    (∀ fuel status s1,
      main fuel forced quick filenameA filenameB (Proc.init fs strerror) = some (status, s1) →
      status = failStatus forced ∧ s1.out = failOut forced) := by
  have hinj : ∀ fuel status s1,
      main fuel forced quick filenameA filenameB (Proc.init fs strerror) = some (status, s1) →
      (∃ s2, main fuel forced quick filenameA filenameB (Proc.init fs strerror)
        = some (failStatus forced, s2) ∧ s2.out = failOut forced) →
      status = failStatus forced ∧ s1.out = failOut forced := by
    intro fuel status s1 h ⟨s2, h2, hout⟩
    rw [h] at h2
    simp only [Option.some.injEq, Prod.mk.injEq] at h2
    obtain ⟨e1, e2⟩ := h2
    subst e1; subst e2
    exact ⟨rfl, hout⟩
  by_cases hchecks : PassesFs (fs filenameA) ∧ PassesFs (fs filenameB) ∧
      PassesStat (fs filenameA) ∧ PassesStat (fs filenameB)
  swap
  · have hall := fun fuel =>
      main_checks_fail fuel forced quick filenameA filenameB fs strerror hchecks
    exact ⟨⟨0, fun fuel _ => hall fuel⟩, fun fuel status s1 h => hinj fuel status s1 h (hall fuel)⟩
  obtain ⟨hfsA, hfsB, hstA, hstB⟩ := hchecks
  have hrest : ¬ PreFilter (fs filenameA).st (fs filenameB).st ∧
      (CannotOpen (fs filenameA) ∨ CannotOpen (fs filenameB) ∨
        ComparatorError quick (fs filenameA) (fs filenameB) (fs filenameA).st.st_blksize) := by
    unfold FailureOccurs at hfail
    rcases hfail with h | h | h | h | h | h | h
    · exact absurd hfsA ((not_passesFs_iff _).2 h)
    · exact absurd hfsB ((not_passesFs_iff _).2 h)
    · exact absurd hstA ((not_passesStat_iff _).2 (Or.inl h))
    · exact absurd hstB ((not_passesStat_iff _).2 (Or.inl h))
    · exact absurd hstA ((not_passesStat_iff _).2 (Or.inr h))
    · exact absurd hstB ((not_passesStat_iff _).2 (Or.inr h))
    · exact h
  obtain ⟨hpre, hrest⟩ := hrest
  by_cases hopen : CannotOpen (fs filenameA) ∨ CannotOpen (fs filenameB)
  · have hall := fun fuel => main_open_fail fuel forced quick filenameA filenameB fs strerror
      hfsA hfsB hstA hstB hpre hopen
    exact ⟨⟨0, fun fuel _ => hall fuel⟩, fun fuel status s1 h => hinj fuel status s1 h (hall fuel)⟩
  have hopA : (fs filenameA).open_errno = none := by
    by_contra h; exact hopen (Or.inl h)
  have hopB : (fs filenameB).open_errno = none := by
    by_contra h; exact hopen (Or.inr h)
  have herr : ComparatorError quick (fs filenameA) (fs filenameB)
      (fs filenameA).st.st_blksize := by
    rcases hrest with h | h | h
    · exact absurd (Or.inl h) hopen
    · exact absurd (Or.inr h) hopen
    · exact h
  obtain ⟨⟨fuel0, hret⟩, hval⟩ := comparator_error_returns quick fs strerror filenameA
    filenameB (fs filenameA).st.st_blksize herr
  constructor
  · refine ⟨fuel0, fun fuel hf => ?_⟩
    obtain ⟨sC, hC⟩ := hret fuel hf
    exact main_comparator_fail fuel forced quick filenameA filenameB fs strerror hfsA hfsB hstA
      hstB hpre hopA hopB sC hC
  · intro fuel status s1 h
    apply hinj fuel status s1 h
    have h2 := h
    rw [main_eq_main_checked fuel forced quick filenameA filenameB fs strerror hfsA hfsB hstA
      hstB, main_checked_eq_main_compare fuel forced quick filenameA filenameB fs strerror
      hpre hopA hopB] at h2
    unfold main_compare at h2
    cases hc : run_comparator fuel quick (fs filenameA).st.st_blksize filenameA filenameB 3 4
        (openedState fs strerror filenameA filenameB) with
    | none => rw [hc] at h2; simp at h2
    | some p =>
      obtain ⟨r, sC⟩ := p
      have hr := hval fuel r sC hc
      subst hr
      exact main_comparator_fail fuel forced quick filenameA filenameB fs strerror hfsA hfsB
        hstA hstB hpre hopA hopB sC hc

/-- C4: failure policy.  For every run of `main` (from a fresh process, with two
path arguments, in either mode) in which a failure condition occurs, that is,
a path is on a file system other than APFS, cannot be stat-ed or is not a
regular file, or, the pre-filter not deciding the pair, a file cannot
be opened or the comparator meets a resolution or seek error: the run exits
(with enough fuel for the walk to reach the error), and every run that exits
has written exactly the line "0" to stdout and exits 0 when force mode is on,
and has written nothing to stdout and exits with a non-zero status when force
mode is off. -/
theorem main_failure_policy (forced quick : Bool) (filenameA filenameB : String)
    (fs : String → File) (strerror : Int → String)
    (hfail : FailureOccurs quick fs filenameA filenameB) :
    (∃ fuel0, ∀ fuel, fuel0 ≤ fuel → ∃ status s1,
      main fuel forced quick filenameA filenameB (Proc.init fs strerror)
        = some (status, s1) ∧
      (forced = true → s1.out = ["0\n"] ∧ status = 0) ∧
      (forced = false → s1.out = [] ∧ status ≠ 0)) ∧
    (∀ fuel status s1,
      main fuel forced quick filenameA filenameB (Proc.init fs strerror) = some (status, s1) →
      (forced = true → s1.out = ["0\n"] ∧ status = 0) ∧
      (forced = false → s1.out = [] ∧ status ≠ 0)) := by
  obtain ⟨⟨fuel0, hret⟩, hval⟩ :=
    failure_outcome forced quick filenameA filenameB fs strerror hfail
  have hshape : ∀ (status : Int) (out : List String),
      status = failStatus forced ∧ out = failOut forced →
      (forced = true → out = ["0\n"] ∧ status = 0) ∧
      (forced = false → out = [] ∧ status ≠ 0) := by
    intro status out ⟨hs, ho⟩
    rw [hs, ho]
    constructor
    · intro hf; subst hf; exact ⟨rfl, rfl⟩
    · intro hf; subst hf; exact ⟨rfl, by decide⟩
  constructor
  · refine ⟨fuel0, fun fuel hf => ?_⟩
    obtain ⟨s1, h, ho⟩ := hret fuel hf
    exact ⟨_, s1, h, hshape _ _ ⟨rfl, ho⟩⟩
  · intro fuel status s1 h
    exact hshape _ _ (hval fuel status s1 h)

/-! ## The claims on the sample volume -/

theorem sample_no_error (path : String) (off : Int) (h0 : 0 ≤ off)
    (hp : path = "a" ∨ path = "b" ∨ path = "c") :
    ¬ ((sampleFs path).log2phys_ext off).isError := by
  have h1 : ¬ off < 0 := by omega
  rcases hp with rfl | rfl | rfl <;>
    simp only [sampleFs, mkFile, FcntlRes.isError] <;> simp [h1] <;> split_ifs <;> simp

theorem sample_erange (path : String) (off : Int) (h0 : 0 ≤ off)
    (hp : path = "a" ∨ path = "b" ∨ path = "c") :
    ((sampleFs path).log2phys_ext off).isERange ↔ 12288 ≤ off := by
  have h1 : ¬ off < 0 := by omega
  rcases hp with rfl | rfl | rfl <;>
    simp only [sampleFs, mkFile, FcntlRes.isERange] <;> simp [h1] <;> split_ifs <;>
    simp <;> omega

theorem sample_point_ok (path : String) (p : Int)
    (hp : path = "a" ∨ path = "b" ∨ path = "c") :
    ((sampleFs path).log2phys p).isOk := by
  rcases hp with rfl | rfl | rfl <;> simp [sampleFs, mkFile, FcntlRes.isOk]

/-- C1 witness: on the sample clones "a" and "b" with the block size 4096 the
hypotheses hold, and the theorem turns the end-of-range at the fourth stride
offset after three matching blocks into a run that returns 1. -/
theorem compare_blocks_full_mode_witness :
    (1 : Int) ≤ 4096 ∧
    (∀ off, 0 ≤ off → ¬ (query_ext 3 off (sampleOpened "a" "b")).isError) ∧
    (∀ off, 0 ≤ off → ¬ (query_ext 4 off (sampleOpened "a" "b")).isError) ∧
    ∃ fuel s1, compare_blocks fuel 4096 "a" "b" 3 4 (sampleOpened "a" "b") = some (1, s1) := by
  have hA : ∀ off, 0 ≤ off → ¬ (query_ext 3 off (sampleOpened "a" "b")).isError := by
    intro off h0
    rw [sampleOpened, query_ext_openedState_A]
    exact sample_no_error "a" off h0 (Or.inl rfl)
  have hB : ∀ off, 0 ≤ off → ¬ (query_ext 4 off (sampleOpened "a" "b")).isError := by
    intro off h0
    rw [sampleOpened, query_ext_openedState_B]
    exact sample_no_error "b" off h0 (Or.inr (Or.inl rfl))
  exact ⟨by decide, hA, hB,
    (compare_blocks_full_mode 4096 "a" "b" 3 4 (sampleOpened "a" "b") (by decide) hA hB).1.2
      ⟨3, by decide⟩⟩

/-- C2 witness: on the sample files "a" and "c", freshly opened as descriptors
3 and 4, the hypotheses hold and the theorem gives the result 1, the two
boundary offsets being equal. -/
theorem compare_boundary_blocks_quick_mode_witness :
    (3 : Int) ≠ 4 ∧
    (∀ p, ((sampleFs "a").log2phys p).isOk) ∧ (∀ p, ((sampleFs "c").log2phys p).isOk) ∧
    ((sampleFs "a").seek_errno = none ∧ 1 ≤ (sampleFs "a").size) ∧
    ((sampleFs "c").seek_errno = none ∧ 1 ≤ (sampleFs "c").size) ∧
    (compare_boundary_blocks "a" "c" 3 4 (sampleOpened "a" "c")).1 = 1 :=
  ⟨by decide, fun p => sample_point_ok "a" p (Or.inl rfl),
    fun p => sample_point_ok "c" p (Or.inr (Or.inr rfl)), by decide, by decide,
    (compare_boundary_blocks_quick_mode "a" "c" 3 4 (sampleOpened "a" "c")
      { file := sampleFs "a", pos := 0 } { file := sampleFs "c", pos := 0 }
      (by decide) rfl rfl rfl rfl (by decide) (by decide)
      (fun p => sample_point_ok "a" p (Or.inl rfl))
      (fun p => sample_point_ok "c" p (Or.inr (Or.inr rfl)))).1.2 (by decide)⟩

/-- C3 witness: the sample files "a" and "small" pass the checks and differ in
size; in quick mode without force the run prints "0" and exits 0. -/
theorem main_prefilter_witness :
    PassesFs (sampleFs "a") ∧ PassesFs (sampleFs "small") ∧
    PassesStat (sampleFs "a") ∧ PassesStat (sampleFs "small") ∧
    (sampleFs "a").st.st_size ≠ (sampleFs "small").st.st_size ∧
    ∃ s1, main 0 false true "a" "small" (Proc.init sampleFs sampleStrerror) = some (0, s1) ∧
      s1.out = ["0\n"] ∧
      s1.trace = [Call.statfs "a" (sampleFs "a").statfs_ret (sampleFs "a").f_fstypename,
        Call.statfs "small" (sampleFs "small").statfs_ret (sampleFs "small").f_fstypename,
        Call.stat "a" (sampleFs "a").stat_ret (sampleFs "a").st,
        Call.stat "small" (sampleFs "small").stat_ret (sampleFs "small").st] ∧
      s1.fds = [] :=
  ⟨by decide, by decide, by decide, by decide, by decide,
    main_prefilter 0 false true "a" "small" sampleFs sampleStrerror (by decide) (by decide)
      (by decide) (by decide) (Or.inr (Or.inr (by decide)))⟩

/-- C4 witness: the stride query of the sample file "broken" fails at offset
4096 after the first block matched that of "a", so a failure condition occurs
in the full-mode run on "broken" and "a"; the forced run with two units of
fuel exits, and the theorem gives the line "0" and the exit status 0. -/
theorem main_failure_policy_witness :
    FailureOccurs false sampleFs "broken" "a" ∧
    main 2 true false "broken" "a" (Proc.init sampleFs sampleStrerror)
      = some (0, finalState (main 2 true false "broken" "a" (Proc.init sampleFs sampleStrerror))
          (Proc.init sampleFs sampleStrerror)) ∧
    ((finalState (main 2 true false "broken" "a" (Proc.init sampleFs sampleStrerror))
      (Proc.init sampleFs sampleStrerror)).out = ["0\n"] ∧ (0 : Int) = 0) := by
  have hfail : FailureOccurs false sampleFs "broken" "a" :=
    Or.inr (Or.inr (Or.inr (Or.inr (Or.inr (Or.inr ⟨by decide,
      Or.inr (Or.inr (Or.inr ⟨rfl, 1, by decide, Or.inl (by decide)⟩))⟩)))))
  exact ⟨hfail, rfl,
    ((main_failure_policy true false "broken" "a" sampleFs sampleStrerror hfail).2 2 0
      (finalState (main 2 true false "broken" "a" (Proc.init sampleFs sampleStrerror))
        (Proc.init sampleFs sampleStrerror)) rfl).1 rfl⟩

/-- C5: quick mode and full mode can disagree.  There are a size, a block size
and two logical-to-physical mappings that agree at logical offset 0 and at the
last byte and differ at an interior stride offset, such that on the two files
with these mappings, opened as descriptors 3 and 4,
`compare_boundary_blocks` returns 1 while `compare_blocks` returns 0. -/
theorem quick_and_full_disagree :
    ∃ (size block_size : Int) (mapA mapB : Int → Int),
      1 ≤ size ∧ 1 ≤ block_size ∧ mapA 0 = mapB 0 ∧ mapA (size - 1) = mapB (size - 1) ∧
      (∃ k : Nat, 0 < k ∧ (k : Int) * block_size < size - 1 ∧
        mapA (k * block_size) ≠ mapB (k * block_size)) ∧
      (compare_boundary_blocks "fileA" "fileB" 3 4
        (openedState (pairFs (mkFile 1 10 size block_size mapA)
          (mkFile 1 11 size block_size mapB)) sampleStrerror "fileA" "fileB")).1 = 1 ∧
      ∃ fuel, (compare_blocks fuel block_size "fileA" "fileB" 3 4
        (openedState (pairFs (mkFile 1 10 size block_size mapA)
          (mkFile 1 11 size block_size mapB)) sampleStrerror "fileA" "fileB")).map Prod.fst
        = some 0 :=
  ⟨12288, 4096, fun o => 1000000 + o,
    fun o => if 4096 ≤ o ∧ o < 8192 then 5000000 + o else 1000000 + o,
    by decide, by decide, by decide, by decide, ⟨1, by decide, by decide, by decide⟩,
    by decide, 2, by decide⟩

/-- C6 counterexample: the sample clones "a" and "b" are 12288 bytes long and
report end-of-range exactly from offset 12288 on; with the block size 4096 the
bound of the claim is 3, but after three evaluations of the loop head the walk
has not returned, and the run that returns 1 has made four iterations, with
queries on the first descriptor at the offsets 0, 4096, 8192 and 12288. -/
theorem compare_blocks_terminates_counterexample :
    (1 : Int) ≤ 12288 ∧ (1 : Int) ≤ 4096 ∧
    (∀ off, 0 ≤ off → ((query_ext 3 off (sampleOpened "a" "b")).isERange ↔ 12288 ≤ off)) ∧
    (∀ off, 0 ≤ off → ((query_ext 4 off (sampleOpened "a" "b")).isERange ↔ 12288 ≤ off)) ∧
    ceilDiv 12288 4096 = 3 ∧
    (compare_blocks 3 4096 "a" "b" 3 4 (sampleOpened "a" "b")).isNone = true ∧
    (compare_blocks 4 4096 "a" "b" 3 4 (sampleOpened "a" "b")).map
      (fun r => (r.1, (r.2.trace.drop (sampleOpened "a" "b").trace.length).filter
        (Call.isExtOn 3)))
      = some (1, [Call.fcntl_log2phys_ext 3 0 ((sampleFs "a").log2phys_ext 0),
          Call.fcntl_log2phys_ext 3 4096 ((sampleFs "a").log2phys_ext 4096),
          Call.fcntl_log2phys_ext 3 8192 ((sampleFs "a").log2phys_ext 8192),
          Call.fcntl_log2phys_ext 3 12288 ((sampleFs "a").log2phys_ext 12288)]) := by
  refine ⟨by decide, by decide, ?_, ?_, by decide, by decide, by decide⟩
  · intro off h0
    rw [sampleOpened, query_ext_openedState_A]
    exact sample_erange "a" off h0 (Or.inl rfl)
  · intro off h0
    rw [sampleOpened, query_ext_openedState_B]
    exact sample_erange "b" off h0 (Or.inr (Or.inl rfl))

/-- C6 witness: on the sample clones "a" and "b" the hypotheses of the
amended theorem hold, and the walk returns within `3 + 1` evaluations of the
loop head. -/
theorem compare_blocks_terminates_witness :
    (1 : Int) ≤ 12288 ∧ (1 : Int) ≤ 4096 ∧
    (∀ off, 0 ≤ off → ((query_ext 3 off (sampleOpened "a" "b")).isERange ↔ 12288 ≤ off)) ∧
    (∀ off, 0 ≤ off → ((query_ext 4 off (sampleOpened "a" "b")).isERange ↔ 12288 ≤ off)) ∧
    ∃ r s1, compare_blocks (ceilDiv 12288 4096 + 1) 4096 "a" "b" 3 4 (sampleOpened "a" "b")
      = some (r, s1) := by
  have hA : ∀ off, 0 ≤ off →
      ((query_ext 3 off (sampleOpened "a" "b")).isERange ↔ 12288 ≤ off) := by
    intro off h0
    rw [sampleOpened, query_ext_openedState_A]
    exact sample_erange "a" off h0 (Or.inl rfl)
  have hB : ∀ off, 0 ≤ off →
      ((query_ext 4 off (sampleOpened "a" "b")).isERange ↔ 12288 ≤ off) := by
    intro off h0
    rw [sampleOpened, query_ext_openedState_B]
    exact sample_erange "b" off h0 (Or.inr (Or.inl rfl))
  exact ⟨by decide, by decide, hA, hB,
    (compare_blocks_terminates 12288 4096 "a" "b" 3 4 (sampleOpened "a" "b") (by decide)
      (by decide) hA hB).1⟩

/-- C7 counterexample: the mapped range of the sample file "short" ends after
two blocks, "a" has three; at the stride offset 8192 "short" reports the
end of its range and "a" resolves, the offsets 0 and 4096 having matched.
`compare_blocks` returns 0, not -1, and the run without force mode prints "0"
and exits 0 instead of failing. -/
theorem compare_blocks_tail_mismatch_counterexample :
    ((sampleFs "short").log2phys_ext ((2 : Nat) * 4096)).isERange ∧
    ((sampleFs "a").log2phys_ext ((2 : Nat) * 4096)).isOk ∧
    (∀ j : Nat, j < 2 → SamePhysical 3 4 (sampleOpened "short" "a") (j * 4096)) ∧
    (compare_blocks 3 4096 "short" "a" 3 4 (sampleOpened "short" "a")).map Prod.fst
      = some 0 ∧
    (main 3 false false "short" "a" (Proc.init sampleFs sampleStrerror)).map
      (fun r => (r.1, r.2.out)) = some (0, ["0\n"]) := by
  decide

/-- C7 witness: the sample files "short" and "a" meet the hypotheses of the
amended theorem at the third stride offset; the walk returns 0, and the run
without force mode prints "0" and exits 0. -/
theorem compare_blocks_tail_mismatch_witness :
    (PassesFs (sampleFs "short") ∧ PassesFs (sampleFs "a") ∧
      PassesStat (sampleFs "short") ∧ PassesStat (sampleFs "a") ∧
      ¬ PreFilter (sampleFs "short").st (sampleFs "a").st) ∧
    ((sampleFs "short").log2phys_ext ((2 : Nat) * (sampleFs "short").st.st_blksize)).isERange ∧
    ((sampleFs "a").log2phys_ext ((2 : Nat) * (sampleFs "short").st.st_blksize)).isOk ∧
    (∃ sC, compare_blocks (2 + 1) 4096 "short" "a" 3 4 (sampleOpened "short" "a")
      = some (0, sC)) ∧
    ∃ s1, main (2 + 1) false false "short" "a" (Proc.init sampleFs sampleStrerror)
      = some (0, s1) ∧ s1.out = ["0\n"] :=
  ⟨by decide, by decide, by decide,
    ((compare_blocks_tail_mismatch "short" "a" 2).1 4096 3 4 (sampleOpened "short" "a")
      (by decide) (by decide) (by decide)).1,
    (compare_blocks_tail_mismatch "short" "a" 2).2 false sampleFs sampleStrerror (by decide)
      (by decide) (by decide) (by decide) (by decide) rfl rfl (by decide) (by decide)
      (by decide)⟩

/-- C8 witness: the full-mode run on the sample clones "a" and "b" exits after
opening both files, and the theorem gives the descriptor discipline of its
trace. -/
theorem main_descriptor_discipline_witness :
    main 4 false false "a" "b" (Proc.init sampleFs sampleStrerror)
      = some (0, finalState (main 4 false false "a" "b" (Proc.init sampleFs sampleStrerror))
          (Proc.init sampleFs sampleStrerror)) ∧
    descriptorsAfter [] (finalState
      (main 4 false false "a" "b" (Proc.init sampleFs sampleStrerror))
      (Proc.init sampleFs sampleStrerror)).trace = some [] :=
  ⟨rfl, main_descriptor_discipline 4 false false "a" "b" sampleFs sampleStrerror 0
    (finalState (main 4 false false "a" "b" (Proc.init sampleFs sampleStrerror))
      (Proc.init sampleFs sampleStrerror)) rfl⟩

/-- C9 witness: the sample files "a" and "c" report end-of-range from offset
12288 on, and the theorem gives a common return value in both argument
orders. -/
theorem compare_blocks_symmetric_witness :
    (1 : Int) ≤ 4096 ∧
    (∀ off, 12288 ≤ off → (query_ext 3 off (sampleOpened "a" "c")).isERange) ∧
    (∀ off, 12288 ≤ off → (query_ext 4 off (sampleOpened "a" "c")).isERange) ∧
    ∃ fuel r s1 s2,
      compare_blocks fuel 4096 "a" "c" 3 4 (sampleOpened "a" "c") = some (r, s1) ∧
      compare_blocks fuel 4096 "c" "a" 4 3 (sampleOpened "a" "c") = some (r, s2) ∧
      (r = 1 ∨ r = 0 ∨ r = -1) := by
  have hA : ∀ off, 12288 ≤ off → (query_ext 3 off (sampleOpened "a" "c")).isERange := by
    intro off h0
    rw [sampleOpened, query_ext_openedState_A]
    exact (sample_erange "a" off (by omega) (Or.inl rfl)).2 h0
  have hB : ∀ off, 12288 ≤ off → (query_ext 4 off (sampleOpened "a" "c")).isERange := by
    intro off h0
    rw [sampleOpened, query_ext_openedState_B]
    exact (sample_erange "c" off (by omega) (Or.inr (Or.inr rfl))).2 h0
  exact ⟨by decide, hA, hB,
    (compare_blocks_symmetric 12288 4096 "a" "c" 3 4 (sampleOpened "a" "c") (by decide)
      hA hB).1⟩

end CloneChecker
